import Mathlib

set_option maxRecDepth 100000

/-!
# Verification of the CommunityDesign dynamic translation subsystem

Shallow embedding of the translation pipeline of the CommunityDesign
repository: the client-side translation cache (`src/lib/translation/client`,
`cache-client`), the client batching translator (`deepl-client`), the DeepL
provider adapter (`src/lib/translation/providers/deepl.ts`), the server
orchestrator (`src/lib/translation/index.ts` with the cache layer in
`src/lib/translation/cache.ts`), the translation API route
(`src/app/api/translate/route.ts`), the language-preference context
(`src/components/translation/TranslationContext.tsx`) and the revert logic of
the Global Translator (`src/components/translation/GlobalTranslator.tsx`).

Conventions used throughout:
* JavaScript strings are modelled by Lean `String`; `jsTrim` models
  `String.prototype.trim` and ASCII case mapping models
  `toLowerCase`/`toUpperCase` (all language codes involved are ASCII).
* Asynchronous provider / network calls are modelled by oracle functions
  returning `Option` results: `none` models every failure of a call
  (network error, non-OK HTTP response, thrown exception); `some x` models a
  successful response carrying `x`.
* `fetch` + mutable module state becomes explicit state passing.
-/

/-! ## JavaScript string helpers -/

/-- Whitespace as trimmed by `String.prototype.trim` (restricted to the
ASCII whitespace characters that occur in this code base). -/
def isJsWhitespace (c : Char) : Bool :=
  c = ' ' ∨ c = '\t' ∨ c = '\n' ∨ c = '\r'

/-- `s.trim()`: strips leading and trailing whitespace.  (Lean's own
`String.trim` is equivalent on these characters but is not kernel-reducible,
so the list-level definition is used.) -/
def jsTrim (s : String) : String :=
  String.mk (((s.toList.dropWhile isJsWhitespace).reverse.dropWhile
    isJsWhitespace).reverse)

/-- ASCII lowercasing of a character, as performed by
`String.prototype.toLowerCase` on ASCII input (`'A'..'Z'` map to
`'a'..'z'`, everything else is unchanged). -/
def jsToLowerChar (c : Char) : Char :=
  if 65 ≤ c.toNat ∧ c.toNat ≤ 90 then Char.ofNat (c.toNat + 32) else c

/-- `s.toLowerCase()` on ASCII input. -/
def jsToLower (s : String) : String :=
  String.mk (s.toList.map jsToLowerChar)

/-- `s.split(sep)[0]`: the prefix of `s` before the first occurrence of the
single-character separator `sep` (the whole string when `sep` does not
occur). -/
def jsSplitHead (s : String) (sep : Char) : String :=
  String.mk (s.toList.takeWhile (fun c => c ≠ sep))

/-- ASCII uppercasing of a character, as performed by
`String.prototype.toUpperCase` on ASCII input. -/
def jsToUpperChar (c : Char) : Char :=
  if 97 ≤ c.toNat ∧ c.toNat ≤ 122 then Char.ofNat (c.toNat - 32) else c

/-- `s.toUpperCase()` on ASCII input. -/
def jsToUpper (s : String) : String :=
  String.mk (s.toList.map jsToUpperChar)

namespace ClientCache

/-!
## Client-side translation cache (`src/lib/translation/client/cache-client.ts`)

Two tiers: the in-memory `Map` and `localStorage`.  Both tiers are modelled
as association lists from key to stored string; `localStorage` additionally
carries the `windowDefined` flag (`typeof window !== 'undefined'`) and a
`storageWorks` flag modelling whether `localStorage` operations succeed or
throw (private browsing, quota, ...).
-/

def CACHE_PREFIX : String := "deepl_cache_"

def CACHE_VERSION : String := "v1"

/-- `ToInt32` coercion of JavaScript (`x & x` / `x << n` operands):
two's-complement wrap-around to the range `[-2^31, 2^31)`. -/
def toInt32 (n : Int) : Int :=
  (n + 2 ^ 31) % 2 ^ 32 - 2 ^ 31

/-- One iteration of the loop body of `generateSyncCacheKey`:
`hash = ((hash << 5) - hash) + char; hash = hash & hash;`. -/
def hashStep (h : Int) (c : Nat) : Int :=
  toInt32 (toInt32 (h * 32) - h + c)

/-- The accumulated 32-bit hash of `generateSyncCacheKey` over a string. -/
def jsHash (s : String) : Int :=
  s.toList.foldl (fun h c => hashStep h c.toNat) 0

/-- Digit character for `Number.prototype.toString(36)`:
`0-9` then `a-z`. -/
def base36Digit (n : Nat) : Char :=
  if n < 10 then Char.ofNat (48 + n) else Char.ofNat (87 + n)

/-- Digit-extraction loop of `toString(36)`; the first argument is
structural fuel (any value `≥ n` yields all digits, since `n / 36 < n`). -/
def toBase36Aux : Nat → Nat → List Char → List Char
  | 0, _, acc => acc
  | fuel + 1, n, acc =>
      if n = 0 then acc else toBase36Aux fuel (n / 36) (base36Digit (n % 36) :: acc)

/-- `n.toString(36)` for a non-negative number. -/
def toBase36 (n : Nat) : String :=
  if n = 0 then "0" else String.mk (toBase36Aux n n [])

/-- `generateSyncCacheKey(text, targetLang)`: the synchronous cache key,
`CACHE_VERSION + "_" + Math.abs(hash of (text + "||" + targetLang)).toString(36)`. -/
def generateSyncCacheKey (text targetLang : String) : String :=
  CACHE_VERSION ++ "_" ++ toBase36 (jsHash (text ++ "||" ++ targetLang)).natAbs

/-- Association-list lookup, modelling `Map.prototype.get` /
`localStorage.getItem` (`none` models `undefined` / `null`). -/
def lookupKV : List (String × String) → String → Option String
  | [], _ => none
  | (k, v) :: rest, key => if k = key then some v else lookupKV rest key

/-- Association-list upsert, modelling `Map.prototype.set` /
`localStorage.setItem`. -/
def insertKV : List (String × String) → String → String → List (String × String)
  | [], key, v => [(key, v)]
  | (k, w) :: rest, key, v =>
      if k = key then (k, v) :: rest else (k, w) :: insertKV rest key v

/-- The module-level mutable state of `cache-client.ts` together with its
host environment. -/
structure CacheState where
  memory : List (String × String)
  localStore : List (String × String)
  windowDefined : Bool
  storageWorks : Bool
deriving DecidableEq, Repr

/-- `getFromCache(text, targetLang)`.  Returns the result together with the
updated state (a `localStorage` hit is promoted into the memory tier).
Note the truthiness tests of the source: `if (memoryResult)` and
`if (stored)` treat an empty stored string like a miss. -/
def getFromCache (st : CacheState) (text targetLang : String) :
    Option String × CacheState :=
  let key := generateSyncCacheKey text targetLang
  let memoryResult := lookupKV st.memory key
  match memoryResult with
  | some v =>
      if v ≠ "" then (some v, st)
      else
        -- falsy memory hit: fall through to localStorage exactly as the
        -- source does after the `if (memoryResult)` guard fails
        if st.windowDefined ∧ st.storageWorks then
          match lookupKV st.localStore (CACHE_PREFIX ++ key) with
          | some stored =>
              if stored ≠ "" then
                (some stored, { st with memory := insertKV st.memory key stored })
              else (none, st)
          | none => (none, st)
        else (none, st)
  | none =>
      if st.windowDefined ∧ st.storageWorks then
        match lookupKV st.localStore (CACHE_PREFIX ++ key) with
        | some stored =>
            if stored ≠ "" then
              (some stored, { st with memory := insertKV st.memory key stored })
            else (none, st)
        | none => (none, st)
      else (none, st)

/-- `setToCache(text, targetLang, translation)`: writes the memory tier
always, and `localStorage` when available (a throwing `setItem` is caught
and leaves only the memory write). -/
def setToCache (st : CacheState) (text targetLang translation : String) :
    CacheState :=
  let key := generateSyncCacheKey text targetLang
  let st := { st with memory := insertKV st.memory key translation }
  if st.windowDefined ∧ st.storageWorks then
    { st with localStore := insertKV st.localStore (CACHE_PREFIX ++ key) translation }
  else st

end ClientCache

namespace ClientCache

/-! ### Basic lemmas for the cache model -/

theorem lookupKV_insertKV_self (l : List (String × String)) (k v : String) :
    lookupKV (insertKV l k v) k = some v := by
  induction l with
  | nil => simp [insertKV, lookupKV]
  | cons hd tl ih =>
      obtain ⟨k', w⟩ := hd
      by_cases h : k' = k <;> simp [insertKV, lookupKV, h, ih]

/-- The empty module state of `cache-client.ts` in a browser with a working
`localStorage`. -/
def freshState : CacheState :=
  { memory := [], localStore := [], windowDefined := true, storageWorks := true }

end ClientCache

/-- C7 (counterexample): the round-trip fails for the stored translation
value `""`.  `setToCache("Hello", "fr", "")` stores the empty string in both
tiers, but `getFromCache("Hello", "fr")` tests both tiers with JavaScript
truthiness (`if (memoryResult)`, `if (stored)`), so the empty string is
treated as a miss and `null` is returned instead of the stored value. -/
theorem getFromCache_setToCache_empty_counterexample :
    (ClientCache.getFromCache
        (ClientCache.setToCache ClientCache.freshState "Hello" "fr" "")
        "Hello" "fr").1 ≠ some "" := by
  decide

/-- C7 (amended): for every cache state and every *non-empty* stored
translation value, `setToCache(text, targetLang, translation)` followed by
`getFromCache(text, targetLang)` returns exactly the stored translation
(the fresh memory-tier write is found first and is truthy). -/
theorem getFromCache_setToCache_roundtrip (st : ClientCache.CacheState)
    (text targetLang translation : String) (h : translation ≠ "") :
    (ClientCache.getFromCache
        (ClientCache.setToCache st text targetLang translation)
        text targetLang).1 = some translation := by
  unfold ClientCache.setToCache ClientCache.getFromCache
  by_cases hw : st.windowDefined ∧ st.storageWorks <;>
    simp [hw, ClientCache.lookupKV_insertKV_self, h]

/-- C7 (witness): the amended round-trip at a concrete input. -/
theorem getFromCache_setToCache_roundtrip_witness :
    (ClientCache.getFromCache
        (ClientCache.setToCache ClientCache.freshState "Hello" "fr" "Bonjour")
        "Hello" "fr").1 = some "Bonjour" :=
  getFromCache_setToCache_roundtrip ClientCache.freshState "Hello" "fr" "Bonjour"
    (by decide)

/-- C8 (counterexample): the key derivation is not collision-resistant.
The pairs `("Aa", "en")` and `("BB", "en")` are distinct, yet their derived
keys coincide (the 32-bit multiplicative hash of `generateSyncCacheKey`
collides on `"Aa"` and `"BB"`, exactly as Java's `String.hashCode` does). -/
theorem generateSyncCacheKey_collision_counterexample :
    ClientCache.generateSyncCacheKey "Aa" "en" =
      ClientCache.generateSyncCacheKey "BB" "en" ∧
    ("Aa", "en") ≠ ("BB", "en") := by
  constructor
  · decide
  · decide

/-- C8 (amended): client-side cache key derivation is deterministic —
equal `(text, targetLang)` pairs always yield equal keys — but it is *not*
collision-resistant: the distinct pairs `("Aa", "en")` and `("BB", "en")`
yield the same key. -/
theorem generateSyncCacheKey_deterministic_not_collision_resistant :
    (∀ t₁ l₁ t₂ l₂ : String, t₁ = t₂ → l₁ = l₂ →
        ClientCache.generateSyncCacheKey t₁ l₁ =
          ClientCache.generateSyncCacheKey t₂ l₂) ∧
    (ClientCache.generateSyncCacheKey "Aa" "en" =
        ClientCache.generateSyncCacheKey "BB" "en" ∧
      ("Aa", "en") ≠ ("BB", "en")) := by
  refine ⟨?_, ?_, ?_⟩
  · intro t₁ l₁ t₂ l₂ ht hl
    rw [ht, hl]
  · decide
  · decide

/-- C8 (witness): the determinism half applied at a concrete pair. -/
theorem generateSyncCacheKey_deterministic_witness :
    ClientCache.generateSyncCacheKey "Hello" "fr" =
      ClientCache.generateSyncCacheKey "Hello" "fr" :=
  generateSyncCacheKey_deterministic_not_collision_resistant.1
    "Hello" "fr" "Hello" "fr" rfl rfl

namespace Deepl

/-!
## DeepL provider adapter (`src/lib/translation/providers/deepl.ts`)

The outbound `fetch` calls are modelled by oracle functions in `Env`:
`fetchSingle text source target` / `fetchBatch texts source target` return
`some result` for a successful HTTP round trip whose body carries the
translations, and `none` for every failure (network error, non-OK status,
missing/short `data.translations`).  The language-code arguments passed to
the oracles are the already-converted DeepL codes, exactly as built into the
request body by the source.
-/

/-- `toDeepLLanguage(code, isTarget)`: uppercase the ISO code; target-role
codes `EN`/`PT` become the regional defaults `EN-US`/`PT-BR`. -/
def toDeepLLanguage (code : String) (isTarget : Bool) : String :=
  let upperCode := jsToUpper code
  if isTarget then
    if upperCode = "EN" then "EN-US"
    else if upperCode = "PT" then "PT-BR"
    else upperCode
  else upperCode

/-- Environment of the provider adapter: whether `DEEPL_API_KEY` is
configured, and the network oracles. -/
structure Env where
  hasApiKey : Bool
  fetchSingle : String → String → String → Option String
  fetchBatch : List String → Option String → String → Option (List String)

/-- `translateText(text, sourceLang, targetLang)`: fail-open single
translation.  Missing credential, empty input and any fetch failure all
return the original text. -/
def translateText (env : Env) (text sourceLang targetLang : String) : String :=
  if env.hasApiKey = false then text
  else if jsTrim text = "" then text
  else
    match env.fetchSingle text (toDeepLLanguage sourceLang false)
        (toDeepLLanguage targetLang true) with
    | some translated => translated
    | none => text

/-- The `texts.forEach` loop of `translateBatch` collecting
`nonEmptyIndices` and `nonEmptyTexts` as one list of pairs; `i` is the
index of the first element of `ts` within the original array. -/
def collectNonEmpty : Nat → List String → List (Nat × String)
  | _, [] => []
  | i, t :: ts =>
      if jsTrim t ≠ "" then (i, t) :: collectNonEmpty (i + 1) ts
      else collectNonEmpty (i + 1) ts

/-- The reconstruction loop of `translateBatch`:
`const result = [...texts]; translations.forEach((t, i) => result[nonEmptyIndices[i]] = t.text)`. -/
def applyBatchResult (base : List String) (pairs : List (Nat × String)) :
    List String :=
  pairs.foldl (fun acc p => acc.set p.1 p.2) base

/-- `translateBatch(texts, sourceLang, targetLang)`.  Returns the result
array together with the outbound request payload (`some nonEmptyTexts` when
a provider call was attempted, `none` when the call was short-circuited). -/
def translateBatch (env : Env) (texts : List String) (sourceLang : Option String)
    (targetLang : String) : List String × Option (List String) :=
  -- `collectNonEmpty 0 texts` is the source's `nonEmptyIndices`/`nonEmptyTexts`
  -- pair of arrays, written inline
  if env.hasApiKey = false then (texts, none)
  else if texts.length = 0 then ([], none)
  else if ((collectNonEmpty 0 texts).map Prod.snd).length = 0 then (texts, none)
  else
    match env.fetchBatch ((collectNonEmpty 0 texts).map Prod.snd)
        (sourceLang.map (fun s => toDeepLLanguage s false))
        (toDeepLLanguage targetLang true) with
    | none => (texts, some ((collectNonEmpty 0 texts).map Prod.snd))
    | some translations =>
        if translations.length = ((collectNonEmpty 0 texts).map Prod.snd).length then
          (applyBatchResult texts
              (((collectNonEmpty 0 texts).map Prod.fst).zip translations),
            some ((collectNonEmpty 0 texts).map Prod.snd))
        else (texts, some ((collectNonEmpty 0 texts).map Prod.snd))

/-! ### Lemmas about the batch reconstruction -/

theorem applyBatchResult_length (pairs : List (Nat × String)) (base : List String) :
    (applyBatchResult base pairs).length = base.length := by
  induction pairs generalizing base with
  | nil => rfl
  | cons p ps ih => simp [applyBatchResult, List.foldl_cons] at ih ⊢; rw [ih, List.length_set]

theorem applyBatchResult_untouched (pairs : List (Nat × String)) (base : List String)
    (k : Nat) (h : ∀ p ∈ pairs, p.1 ≠ k) :
    (applyBatchResult base pairs)[k]? = base[k]? := by
  induction pairs generalizing base with
  | nil => rfl
  | cons p ps ih =>
      have hp : p.1 ≠ k := h p (by simp)
      have hrec := ih (base.set p.1 p.2) (fun q hq => h q (by simp [hq]))
      simp only [applyBatchResult, List.foldl_cons] at hrec ⊢
      rw [hrec, List.getElem?_set_ne hp]

theorem collectNonEmpty_map_snd (ts : List String) :
    ∀ i, (collectNonEmpty i ts).map Prod.snd = ts.filter (fun t => jsTrim t ≠ "") := by
  induction ts with
  | nil => intro i; rfl
  | cons t ts ih =>
      intro i
      by_cases h : jsTrim t ≠ "" <;> simp [collectNonEmpty, List.filter_cons, h, ih]

theorem collectNonEmpty_fst_nonEmpty (ts : List String) :
    ∀ i j, j ∈ (collectNonEmpty i ts).map Prod.fst →
      i ≤ j ∧ ∃ h : j - i < ts.length, jsTrim ts[j - i] ≠ "" := by
  induction ts with
  | nil => intro i j hj; simp [collectNonEmpty] at hj
  | cons t ts ih =>
      intro i j hj
      by_cases h : jsTrim t ≠ ""
      · simp only [collectNonEmpty, if_pos h, List.map_cons, List.mem_cons] at hj
        rcases hj with rfl | hj
        · exact ⟨Nat.le_refl j, by simpa using h⟩
        · obtain ⟨hle, hlt, hne⟩ := ih (i + 1) j hj
          refine ⟨Nat.le_of_succ_le hle, ?_⟩
          have hj1 : j - i = (j - (i + 1)) + 1 := by omega
          refine ⟨by simpa [hj1] using Nat.succ_lt_succ hlt, ?_⟩
          simpa [hj1] using hne
      · simp only [collectNonEmpty, if_neg h] at hj
        obtain ⟨hle, hlt, hne⟩ := ih (i + 1) j hj
        refine ⟨Nat.le_of_succ_le hle, ?_⟩
        have hj1 : j - i = (j - (i + 1)) + 1 := by omega
        refine ⟨by simpa [hj1] using Nat.succ_lt_succ hlt, ?_⟩
        simpa [hj1] using hne

/-- Demonstration environment for the concrete scenario of the spec: the
provider translates the batch `["Hi"]` to `["Salut"]` and fails on anything
else. -/
def demoEnv : Env :=
  { hasApiKey := true
    fetchSingle := fun _ _ _ => none
    fetchBatch := fun ts _ _ => if ts = ["Hi"] then some ["Salut"] else none }

end Deepl


/-- C2: `translateBatch` always returns an array of the same length as its
input, every empty or whitespace-only position is returned unchanged at its
original index, any outbound provider call carries exactly the non-empty
texts (in input order), and the concrete scenario
`translateBatch(["", "Hi", "   "], "fr")` with the provider translating
`"Hi"` to `"Salut"` returns `["", "Salut", "   "]`. -/
theorem deepl_translateBatch_shape :
    (∀ (env : Deepl.Env) (texts : List String) (sourceLang : Option String)
        (targetLang : String),
      (Deepl.translateBatch env texts sourceLang targetLang).1.length =
          texts.length ∧
      (∀ (k : Nat) (t : String), texts[k]? = some t → jsTrim t = "" →
        (Deepl.translateBatch env texts sourceLang targetLang).1[k]? = some t) ∧
      (∀ r, (Deepl.translateBatch env texts sourceLang targetLang).2 = some r →
        r = texts.filter (fun t => jsTrim t ≠ ""))) ∧
    Deepl.translateBatch Deepl.demoEnv ["", "Hi", "   "] none "fr" =
      (["", "Salut", "   "], some ["Hi"]) := by
  constructor
  · intro env texts sourceLang targetLang
    have hfil : (Deepl.collectNonEmpty 0 texts).map Prod.snd =
        texts.filter (fun t => jsTrim t ≠ "") :=
      Deepl.collectNonEmpty_map_snd texts 0
    unfold Deepl.translateBatch
    by_cases hkey : env.hasApiKey = false
    · rw [if_pos hkey]
      exact ⟨rfl, fun _ _ h _ => h, fun r hr => Option.noConfusion hr⟩
    · rw [if_neg hkey]
      by_cases hlen : texts.length = 0
      · rw [if_pos hlen]
        obtain rfl := List.length_eq_zero.mp hlen
        exact ⟨rfl, fun _ _ h _ => h, fun r hr => Option.noConfusion hr⟩
      · rw [if_neg hlen]
        by_cases hne : ((Deepl.collectNonEmpty 0 texts).map Prod.snd).length = 0
        · rw [if_pos hne]
          exact ⟨rfl, fun _ _ h _ => h, fun r hr => Option.noConfusion hr⟩
        · rw [if_neg hne]
          cases hfetch : env.fetchBatch ((Deepl.collectNonEmpty 0 texts).map Prod.snd)
              (sourceLang.map (fun s => Deepl.toDeepLLanguage s false))
              (Deepl.toDeepLLanguage targetLang true) with
          | none =>
              refine ⟨rfl, fun _ _ h _ => h, fun r hr => ?_⟩
              rw [← Option.some.inj hr, hfil]
          | some translations =>
              dsimp only
              by_cases hmatch : translations.length =
                  ((Deepl.collectNonEmpty 0 texts).map Prod.snd).length
              · rw [if_pos hmatch]
                refine ⟨Deepl.applyBatchResult_length _ _, ?_, fun r hr => ?_⟩
                · intro k t hk ht
                  rw [Deepl.applyBatchResult_untouched _ _ k ?_]
                  · exact hk
                  · intro p hp hpk
                    have hfst : p.1 ∈ (Deepl.collectNonEmpty 0 texts).map Prod.fst :=
                      (List.of_mem_zip hp).1
                    obtain ⟨-, hlt, hnz⟩ :=
                      Deepl.collectNonEmpty_fst_nonEmpty texts 0 p.1 hfst
                    rw [List.getElem?_eq_some] at hk
                    obtain ⟨hklt, hkt⟩ := hk
                    have h1 : texts[p.1 - 0]? = some texts[p.1 - 0] :=
                      List.getElem?_eq_getElem hlt
                    have hidx : p.1 - 0 = k := by omega
                    have h3 : texts[p.1 - 0]? = texts[k]? := by rw [hidx]
                    have h2 : texts[p.1 - 0] = texts[k] :=
                      Option.some.inj
                        (h1.symm.trans (h3.trans (List.getElem?_eq_getElem hklt)))
                    apply hnz
                    rw [h2, hkt, ht]
                · rw [← Option.some.inj hr, hfil]
              · rw [if_neg hmatch]
                refine ⟨rfl, fun _ _ h _ => h, fun r hr => ?_⟩
                rw [← Option.some.inj hr, hfil]
  · decide

/-- C2 (witness): the universal half applied at the concrete scenario:
`["", "Hi", "   "]` has its whitespace-only position 2 returned unchanged
and the outbound call carries exactly `["Hi"]`. -/
theorem deepl_translateBatch_shape_witness :
    (Deepl.translateBatch Deepl.demoEnv ["", "Hi", "   "] none "fr").1[2]? =
        some "   " ∧
    (["Hi"] : List String) =
      (["", "Hi", "   "] : List String).filter (fun t => jsTrim t ≠ "") := by
  refine ⟨(deepl_translateBatch_shape.1 Deepl.demoEnv ["", "Hi", "   "] none
      "fr").2.1 2 "   " (by decide) (by decide), ?_⟩
  refine (deepl_translateBatch_shape.1 Deepl.demoEnv ["", "Hi", "   "] none
      "fr").2.2 ["Hi"] ?_
  rw [deepl_translateBatch_shape.2]

/-- C3: on any batch failure — missing API key, or a provider response that
is absent (network error / non-OK HTTP / thrown exception) or whose
translation count differs from the non-empty request count —
`translateBatch` returns the entire input array unchanged. -/
theorem deepl_translateBatch_fail_open (env : Deepl.Env) (texts : List String)
    (sourceLang : Option String) (targetLang : String)
    (h : env.hasApiKey = false ∨
      ∀ translations,
        env.fetchBatch (texts.filter (fun t => jsTrim t ≠ ""))
            (sourceLang.map (fun s => Deepl.toDeepLLanguage s false))
            (Deepl.toDeepLLanguage targetLang true) = some translations →
          translations.length ≠ (texts.filter (fun t => jsTrim t ≠ "")).length) :
    (Deepl.translateBatch env texts sourceLang targetLang).1 = texts := by
  have hfil : (Deepl.collectNonEmpty 0 texts).map Prod.snd =
      texts.filter (fun t => jsTrim t ≠ "") :=
    Deepl.collectNonEmpty_map_snd texts 0
  unfold Deepl.translateBatch
  by_cases hkey : env.hasApiKey = false
  · rw [if_pos hkey]
  · rw [if_neg hkey]
    rcases h with hkey' | hfail
    · exact absurd hkey' hkey
    · by_cases hlen : texts.length = 0
      · rw [if_pos hlen]
        exact (List.length_eq_zero.mp hlen).symm
      · rw [if_neg hlen]
        by_cases hne : ((Deepl.collectNonEmpty 0 texts).map Prod.snd).length = 0
        · rw [if_pos hne]
        · rw [if_neg hne]
          cases hfetch : env.fetchBatch ((Deepl.collectNonEmpty 0 texts).map Prod.snd)
              (sourceLang.map (fun s => Deepl.toDeepLLanguage s false))
              (Deepl.toDeepLLanguage targetLang true) with
          | none => rfl
          | some translations =>
              dsimp only
              have hmatch : ¬ translations.length =
                  ((Deepl.collectNonEmpty 0 texts).map Prod.snd).length := by
                rw [hfil] at hfetch ⊢
                exact hfail translations hfetch
              rw [if_neg hmatch]

/-- C3 (witness): provider failure (`fetchBatch` always `none`) on a
concrete input returns the input unchanged. -/
theorem deepl_translateBatch_fail_open_witness :
    (Deepl.translateBatch
        { hasApiKey := true, fetchSingle := fun _ _ _ => none,
          fetchBatch := fun _ _ _ => none }
        ["Hello", "World"] none "fr").1 = ["Hello", "World"] :=
  deepl_translateBatch_fail_open _ ["Hello", "World"] none "fr"
    (Or.inr (fun translations h => by simp at h))

namespace ServerTranslation

/-!
## Server-side translation cache and orchestrator
(`src/lib/translation/cache.ts`, `src/lib/translation/index.ts`)

The database table `translation` (unique on
`entityType_entityId_fieldName_targetLanguage`) is modelled as an
association list from `CacheKey` to `CacheEntry`; `upsert` is replace-or-
append.  `hashContent` (SHA-256 in `src/lib/translation/utils.ts`) is an
opaque parameter of the model.  The optional float `confidenceScore` column
is never supplied by `translateForUser` and is omitted.
-/

def MODEL_PROVIDER : String := "deepl"

def MODEL_VERSION : String := "v2"

/-- The unique key `entityType_entityId_fieldName_targetLanguage`. -/
structure CacheKey where
  entityType : String
  entityId : String
  fieldName : String
  targetLanguage : String
deriving DecidableEq, Repr

/-- The non-key columns of a `translation` row. -/
structure CacheEntry where
  sourceLanguage : String
  sourceHash : String
  translatedContent : String
  modelProvider : String
  modelVersion : String
deriving DecidableEq, Repr

/-- `db.translation.findUnique` on the modelled table. -/
def findUnique : List (CacheKey × CacheEntry) → CacheKey → Option CacheEntry
  | [], _ => none
  | (k, e) :: rest, key => if k = key then some e else findUnique rest key

/-- `db.translation.upsert` on the modelled table. -/
def upsert : List (CacheKey × CacheEntry) → CacheKey → CacheEntry →
    List (CacheKey × CacheEntry)
  | [], key, e => [(key, e)]
  | (k, e') :: rest, key, e =>
      if k = key then (k, e) :: rest else (k, e') :: upsert rest key e

/-- `getCachedTranslationWithHash`: return the cached translation only if
the stored source hash matches (content unchanged); both a missing row and
a hash mismatch are a miss. -/
def getCachedTranslationWithHash (cache : List (CacheKey × CacheEntry))
    (entityType entityId fieldName targetLanguage sourceHash : String) :
    Option String :=
  match findUnique cache
      { entityType, entityId, fieldName, targetLanguage } with
  | some translation =>
      if translation.sourceHash = sourceHash then
        some translation.translatedContent
      else none
  | none => none

/-- Parameters of `setCachedTranslation`. -/
structure SetCachedTranslationParams where
  entityType : String
  entityId : String
  fieldName : String
  sourceLanguage : String
  sourceHash : String
  targetLanguage : String
  translatedContent : String
  modelProvider : String
  modelVersion : String
deriving DecidableEq, Repr

/-- `setCachedTranslation`: store or update a translation in the cache
(an upsert on the unique key). -/
def setCachedTranslation (cache : List (CacheKey × CacheEntry))
    (params : SetCachedTranslationParams) : List (CacheKey × CacheEntry) :=
  upsert cache
    { entityType := params.entityType, entityId := params.entityId,
      fieldName := params.fieldName, targetLanguage := params.targetLanguage }
    { sourceLanguage := params.sourceLanguage, sourceHash := params.sourceHash,
      translatedContent := params.translatedContent,
      modelProvider := params.modelProvider, modelVersion := params.modelVersion }

/-- Parameters of `translateForUser`. -/
structure TranslateForUserParams where
  entityType : String
  entityId : String
  fieldName : String
  content : String
  sourceLanguage : String
  targetLanguage : String
deriving DecidableEq, Repr

/-- `translateForUser`: return original when languages match or content is
empty; otherwise consult the hash-checked cache; on a miss translate via the
DeepL provider and write the result back (the fire-and-forget
`setCachedTranslation` becomes the returned cache state). -/
def translateForUser (hashContent : String → String) (env : Deepl.Env)
    (cache : List (CacheKey × CacheEntry)) (params : TranslateForUserParams) :
    String × List (CacheKey × CacheEntry) :=
  if params.sourceLanguage = params.targetLanguage then (params.content, cache)
  else if jsTrim params.content = "" then (params.content, cache)
  else
    match getCachedTranslationWithHash cache params.entityType params.entityId
        params.fieldName params.targetLanguage (hashContent params.content) with
    | some cached => (cached, cache)
    | none =>
        let translated := Deepl.translateText env params.content
          params.sourceLanguage params.targetLanguage
        (translated,
          setCachedTranslation cache
            { entityType := params.entityType, entityId := params.entityId,
              fieldName := params.fieldName,
              sourceLanguage := params.sourceLanguage,
              sourceHash := hashContent params.content,
              targetLanguage := params.targetLanguage,
              translatedContent := translated,
              modelProvider := MODEL_PROVIDER, modelVersion := MODEL_VERSION })

theorem findUnique_upsert_self (cache : List (CacheKey × CacheEntry))
    (key : CacheKey) (e : CacheEntry) :
    findUnique (upsert cache key e) key = some e := by
  induction cache with
  | nil => simp [upsert, findUnique]
  | cons hd tl ih =>
      obtain ⟨k, e'⟩ := hd
      by_cases h : k = key <;> simp [upsert, findUnique, h, ih]

end ServerTranslation

/-- C1 (counterexample): with the provider failing (here: missing DeepL
credential) on a cache miss, `translateForUser` returns the original
content unchanged — but a cache entry *is* written for that call: the
fail-open `translateText` result (the original content) is passed to the
fire-and-forget `setCachedTranslation` upsert unconditionally. -/
theorem translateForUser_failure_writes_cache_counterexample :
    (ServerTranslation.translateForUser (fun s => s)
        { hasApiKey := false, fetchSingle := fun _ _ _ => none,
          fetchBatch := fun _ _ _ => none }
        []
        { entityType := "Post", entityId := "1", fieldName := "title",
          content := "Hello", sourceLanguage := "en",
          targetLanguage := "fr" }).1 = "Hello" ∧
    (ServerTranslation.translateForUser (fun s => s)
        { hasApiKey := false, fetchSingle := fun _ _ _ => none,
          fetchBatch := fun _ _ _ => none }
        []
        { entityType := "Post", entityId := "1", fieldName := "title",
          content := "Hello", sourceLanguage := "en",
          targetLanguage := "fr" }).2.length = 1 := by
  constructor
  · decide
  · decide

/-- C1 (amended): for every call to `translateForUser` in which the
translation provider fails (missing credential or failed fetch), on a cache
miss with distinct languages and non-empty content, the operation returns
the original content unchanged — and a cache entry whose
`translatedContent` is that original content is written (upserted) for the
call. -/
theorem translateForUser_provider_failure (hashContent : String → String)
    (env : Deepl.Env) (cache : List (ServerTranslation.CacheKey ×
      ServerTranslation.CacheEntry))
    (params : ServerTranslation.TranslateForUserParams)
    (hfail : env.hasApiKey = false ∨
      env.fetchSingle params.content
        (Deepl.toDeepLLanguage params.sourceLanguage false)
        (Deepl.toDeepLLanguage params.targetLanguage true) = none)
    (hlang : params.sourceLanguage ≠ params.targetLanguage)
    (hcontent : jsTrim params.content ≠ "")
    (hmiss : ServerTranslation.getCachedTranslationWithHash cache
        params.entityType params.entityId params.fieldName
        params.targetLanguage (hashContent params.content) = none) :
    (ServerTranslation.translateForUser hashContent env cache params).1 =
        params.content ∧
    ServerTranslation.findUnique
        (ServerTranslation.translateForUser hashContent env cache params).2
        { entityType := params.entityType, entityId := params.entityId,
          fieldName := params.fieldName,
          targetLanguage := params.targetLanguage } =
      some { sourceLanguage := params.sourceLanguage,
             sourceHash := hashContent params.content,
             translatedContent := params.content,
             modelProvider := ServerTranslation.MODEL_PROVIDER,
             modelVersion := ServerTranslation.MODEL_VERSION } := by
  have htext : Deepl.translateText env params.content params.sourceLanguage
      params.targetLanguage = params.content := by
    unfold Deepl.translateText
    rcases hfail with hkey | hfetch
    · rw [if_pos hkey]
    · by_cases hkey : env.hasApiKey = false
      · rw [if_pos hkey]
      · rw [if_neg hkey, if_neg hcontent, hfetch]
  unfold ServerTranslation.translateForUser
  rw [if_neg hlang, if_neg hcontent, hmiss]
  dsimp only
  rw [htext]
  exact ⟨rfl, ServerTranslation.findUnique_upsert_self _ _ _⟩

/-- C1 (witness): the amended statement at the concrete failing call of the
counterexample. -/
theorem translateForUser_provider_failure_witness :
    (ServerTranslation.translateForUser (fun s => s)
        { hasApiKey := false, fetchSingle := fun _ _ _ => none,
          fetchBatch := fun _ _ _ => none }
        []
        { entityType := "Post", entityId := "1", fieldName := "title",
          content := "Hello", sourceLanguage := "en",
          targetLanguage := "fr" }).1 = "Hello" ∧
    ServerTranslation.findUnique
        (ServerTranslation.translateForUser (fun s => s)
            { hasApiKey := false, fetchSingle := fun _ _ _ => none,
              fetchBatch := fun _ _ _ => none }
            []
            { entityType := "Post", entityId := "1", fieldName := "title",
              content := "Hello", sourceLanguage := "en",
              targetLanguage := "fr" }).2
        { entityType := "Post", entityId := "1", fieldName := "title",
          targetLanguage := "fr" } =
      some { sourceLanguage := "en", sourceHash := "Hello",
             translatedContent := "Hello",
             modelProvider := ServerTranslation.MODEL_PROVIDER,
             modelVersion := ServerTranslation.MODEL_VERSION } :=
  translateForUser_provider_failure (fun s => s)
    { hasApiKey := false, fetchSingle := fun _ _ _ => none,
      fetchBatch := fun _ _ _ => none }
    []
    { entityType := "Post", entityId := "1", fieldName := "title",
      content := "Hello", sourceLanguage := "en", targetLanguage := "fr" }
    (Or.inl rfl) (by decide) (by decide) rfl

namespace ClientService

/-!
## Client batching translator (`src/lib/translation/client/deepl-client.ts`)

`flushQueue` drains the module-level `requestQueue`, groups it by target
language with a `Map` (whose iteration order is first-appearance order of
the keys), splits each group into chunks of `MAX_BATCH_SIZE` and settles
every request's promise.  The `fetchTranslations` call is the oracle
`fetch` (`none` models a thrown error).  The settlement of each request is
returned as an explicit `(request, outcome)` list: a promise settling
exactly once corresponds to its request occurring exactly once in that
list. -/

def MAX_BATCH_SIZE : Nat := 50

/-- An entry of `requestQueue` (the `resolve`/`reject` callbacks become the
returned outcome). -/
structure QueuedRequest where
  text : String
  targetLang : String
deriving DecidableEq, Repr

/-- How a queued promise was settled. -/
inductive Outcome where
  | resolved (translation : String)
  | rejected
deriving DecidableEq, Repr

/-- The chunking loop `for (let i = 0; i < n; i += MAX_BATCH_SIZE)`; the
first argument is structural fuel (any value `≥ l.length` is enough). -/
def chunksOfAux {α : Type} : Nat → List α → List (List α)
  | 0, _ => []
  | _, [] => []
  | fuel + 1, x :: xs =>
      (x :: xs).take MAX_BATCH_SIZE ::
        chunksOfAux fuel ((x :: xs).drop MAX_BATCH_SIZE)

/-- Split a list into successive chunks of `MAX_BATCH_SIZE`. -/
def chunksOf {α : Type} (l : List α) : List (List α) :=
  chunksOfAux l.length l

/-- Settle one chunk: on a successful fetch, request `index` is resolved
with `translations[index] || req.text` (a missing or empty element falls
back to the original text); on a failed fetch every request in the chunk is
resolved with its original text (the `catch` branch). -/
def processChunk (fetch : List String → String → Option (List String))
    (targetLang : String) (chunk : List QueuedRequest) :
    List (QueuedRequest × Outcome) :=
  match fetch (chunk.map (fun r => r.text)) targetLang with
  | some translations =>
      chunk.enum.map (fun p =>
        (p.2, Outcome.resolved
          (match translations[p.1]? with
           | some t => if t = "" then p.2.text else t
           | none => p.2.text)))
  | none => chunk.map (fun req => (req, Outcome.resolved req.text))

/-- Key order of the `byLanguage` `Map`: target languages in order of first
appearance in the queue. -/
def distinctLangs (queue : List QueuedRequest) : List String :=
  queue.foldl
    (fun acc r => if r.targetLang ∈ acc then acc else acc ++ [r.targetLang]) []

/-- `flushQueue` on a drained queue: process each language group
(`queue.filter` reconstructs the group a `Map` accumulates for a key) chunk
by chunk. -/
def flushQueue (fetch : List String → String → Option (List String))
    (queue : List QueuedRequest) : List (QueuedRequest × Outcome) :=
  (distinctLangs queue).flatMap (fun lang =>
    (chunksOf (queue.filter (fun r => r.targetLang = lang))).flatMap
      (processChunk fetch lang))

/-! ### Lemmas -/

theorem processChunk_map_fst (fetch : List String → String → Option (List String))
    (targetLang : String) (chunk : List QueuedRequest) :
    (processChunk fetch targetLang chunk).map Prod.fst = chunk := by
  unfold processChunk
  cases fetch (chunk.map (fun r => r.text)) targetLang with
  | none => simp [List.map_map, Function.comp_def]
  | some translations => simp [List.map_map, Function.comp_def, List.enum_map_snd]

theorem chunksOfAux_flatten {α : Type} :
    ∀ (fuel : Nat) (l : List α), l.length ≤ fuel →
      (chunksOfAux fuel l).flatten = l := by
  intro fuel
  induction fuel with
  | zero =>
      intro l hl
      rw [Nat.le_zero] at hl
      rw [List.length_eq_zero.mp hl]
      rfl
  | succ fuel ih =>
      intro l hl
      cases l with
      | nil => rfl
      | cons x xs =>
          have hm : MAX_BATCH_SIZE = 50 := rfl
          have hdrop : ((x :: xs).drop MAX_BATCH_SIZE).length ≤ fuel := by
            simp only [List.length_drop, List.length_cons, hm]
            simp only [List.length_cons] at hl
            omega
          unfold chunksOfAux
          rw [List.flatten_cons, ih _ hdrop, List.take_append_drop]

theorem chunksOf_flatten {α : Type} (l : List α) : (chunksOf l).flatten = l :=
  chunksOfAux_flatten l.length l (Nat.le_refl _)

theorem mem_of_mem_chunksOfAux {α : Type} :
    ∀ (fuel : Nat) (l : List α) (c : List α), c ∈ chunksOfAux fuel l →
      ∀ x ∈ c, x ∈ l := by
  intro fuel
  induction fuel with
  | zero => intro l c hc; simp [chunksOfAux] at hc
  | succ fuel ih =>
      intro l c hc x hx
      cases l with
      | nil => simp [chunksOfAux] at hc
      | cons y ys =>
          unfold chunksOfAux at hc
          rcases List.mem_cons.mp hc with rfl | hc
          · exact List.mem_of_mem_take hx
          · exact List.mem_of_mem_drop (ih _ c hc x hx)

theorem mem_of_mem_chunksOf {α : Type} (l : List α) (c : List α)
    (hc : c ∈ chunksOf l) : ∀ x ∈ c, x ∈ l :=
  mem_of_mem_chunksOfAux l.length l c hc

theorem distinctLangs_aux_mem_acc (queue : List QueuedRequest) :
    ∀ (acc : List String) (x : String), x ∈ acc →
      x ∈ queue.foldl
        (fun acc r => if r.targetLang ∈ acc then acc else acc ++ [r.targetLang])
        acc := by
  induction queue with
  | nil => intro acc x hx; exact hx
  | cons r rest ih =>
      intro acc x hx
      rw [List.foldl_cons]
      by_cases h : r.targetLang ∈ acc
      · rw [if_pos h]; exact ih acc x hx
      · rw [if_neg h]
        exact ih _ x (List.mem_append_left _ hx)

theorem distinctLangs_aux_nodup (queue : List QueuedRequest) :
    ∀ (acc : List String), acc.Nodup →
      (queue.foldl
        (fun acc r => if r.targetLang ∈ acc then acc else acc ++ [r.targetLang])
        acc).Nodup := by
  induction queue with
  | nil => intro acc h; exact h
  | cons r rest ih =>
      intro acc hacc
      rw [List.foldl_cons]
      by_cases h : r.targetLang ∈ acc
      · rw [if_pos h]; exact ih acc hacc
      · rw [if_neg h]
        refine ih _ ?_
        rw [List.nodup_append]
        exact ⟨hacc, List.nodup_singleton _, by simpa using h⟩

theorem distinctLangs_aux_complete (queue : List QueuedRequest) :
    ∀ (acc : List String) (r : QueuedRequest), r ∈ queue →
      r.targetLang ∈ queue.foldl
        (fun acc r => if r.targetLang ∈ acc then acc else acc ++ [r.targetLang])
        acc := by
  induction queue with
  | nil => intro acc r hr; simp at hr
  | cons q rest ih =>
      intro acc r hr
      rw [List.foldl_cons]
      rcases List.mem_cons.mp hr with rfl | hr
      · by_cases h : r.targetLang ∈ acc
        · rw [if_pos h]; exact distinctLangs_aux_mem_acc rest acc _ h
        · rw [if_neg h]
          exact distinctLangs_aux_mem_acc rest _ _
            (List.mem_append_right _ (List.mem_singleton_self _))
      · by_cases h : q.targetLang ∈ acc
        · rw [if_pos h]; exact ih acc r hr
        · rw [if_neg h]; exact ih _ r hr

theorem distinctLangs_nodup (queue : List QueuedRequest) :
    (distinctLangs queue).Nodup :=
  distinctLangs_aux_nodup queue [] List.nodup_nil

theorem distinctLangs_complete (queue : List QueuedRequest) (r : QueuedRequest)
    (hr : r ∈ queue) : r.targetLang ∈ distinctLangs queue :=
  distinctLangs_aux_complete queue [] r hr

theorem flatMap_filter_perm (ks : List String) :
    ∀ (q : List QueuedRequest), ks.Nodup →
      (∀ r ∈ q, r.targetLang ∈ ks) →
      (ks.flatMap (fun k => q.filter (fun r => r.targetLang = k))).Perm q := by
  induction ks with
  | nil =>
      intro q _ hc
      cases q with
      | nil => exact List.Perm.refl _
      | cons r rest => exact absurd (hc r (List.mem_cons_self _ _)) (by simp)
  | cons k ks ih =>
      intro q hnd hc
      rw [List.flatMap_cons]
      have hknotin : k ∉ ks := (List.nodup_cons.mp hnd).1
      have hrest : ∀ k' ∈ ks,
          q.filter (fun r => r.targetLang = k') =
            (q.filter (fun r => !decide (r.targetLang = k))).filter
              (fun r => r.targetLang = k') := by
        intro k' hk'
        have hne' : ¬ (k' = k) := fun hkk => hknotin (hkk ▸ hk')
        rw [List.filter_filter]
        refine (List.filter_congr ?_).symm
        intro r _
        by_cases h : r.targetLang = k'
        · simp [h, hne']
        · simp [h]
      rw [List.flatMap_congr hrest]
      have hperm := ih (q.filter (fun r => !decide (r.targetLang = k)))
        (List.nodup_cons.mp hnd).2
        (by
          intro r hrmem
          have hr := List.mem_filter.mp hrmem
          have := hc r hr.1
          rcases List.mem_cons.mp this with heq | hmem
          · exfalso
            have := hr.2
            rw [heq] at this
            simp at this
          · exact hmem)
      exact (List.Perm.append_left _ hperm).trans (List.filter_append_perm _ q)

end ClientService

/-- C5: every request in the drained queue is settled exactly once by
`flushQueue` (the settled requests are a permutation of the queue, so each
enqueued request occurs exactly once among the settlements), every
settlement is a resolution (never a rejection), and a chunk whose provider
call fails has every one of its requests resolved with its original text. -/
theorem client_flushQueue_settlement
    (fetch : List String → String → Option (List String))
    (queue : List ClientService.QueuedRequest) :
    ((ClientService.flushQueue fetch queue).map Prod.fst).Perm queue ∧
    (∀ p ∈ ClientService.flushQueue fetch queue,
      ∃ s, p.2 = ClientService.Outcome.resolved s) ∧
    (∀ (lang : String) (chunk : List ClientService.QueuedRequest),
      chunk ∈ ClientService.chunksOf
          (queue.filter (fun r => r.targetLang = lang)) →
      fetch (chunk.map (fun r => r.text)) lang = none →
      ∀ r ∈ chunk,
        (r, ClientService.Outcome.resolved r.text) ∈
          ClientService.flushQueue fetch queue) := by
  refine ⟨?_, ?_, ?_⟩
  · unfold ClientService.flushQueue
    rw [List.map_flatMap]
    have hinner : ∀ lang ∈ ClientService.distinctLangs queue,
        ((ClientService.chunksOf
            (queue.filter (fun r => r.targetLang = lang))).flatMap
          (ClientService.processChunk fetch lang)).map Prod.fst =
        queue.filter (fun r => r.targetLang = lang) := by
      intro lang _
      rw [List.map_flatMap]
      have : ∀ c ∈ ClientService.chunksOf
          (queue.filter (fun r => r.targetLang = lang)),
          (ClientService.processChunk fetch lang c).map Prod.fst = id c := by
        intro c _
        exact ClientService.processChunk_map_fst fetch lang c
      rw [List.flatMap_congr this, List.flatMap_id,
        ClientService.chunksOf_flatten]
    rw [List.flatMap_congr hinner]
    exact ClientService.flatMap_filter_perm (ClientService.distinctLangs queue)
      queue (ClientService.distinctLangs_nodup queue)
      (fun r hr => ClientService.distinctLangs_complete queue r hr)
  · intro p hp
    rw [ClientService.flushQueue, List.mem_flatMap] at hp
    obtain ⟨lang, -, hp⟩ := hp
    rw [List.mem_flatMap] at hp
    obtain ⟨c, -, hp⟩ := hp
    rw [ClientService.processChunk] at hp
    cases hfetch : fetch (c.map (fun r => r.text)) lang with
    | none =>
        rw [hfetch] at hp
        obtain ⟨req, -, rfl⟩ := List.mem_map.mp hp
        exact ⟨req.text, rfl⟩
    | some translations =>
        rw [hfetch] at hp
        obtain ⟨pr, -, rfl⟩ := List.mem_map.mp hp
        exact ⟨_, rfl⟩
  · intro lang chunk hchunk hfetch r hr
    have hrfil : r ∈ queue.filter (fun q => q.targetLang = lang) :=
      ClientService.mem_of_mem_chunksOf _ chunk hchunk r hr
    have hrq : r ∈ queue := (List.mem_filter.mp hrfil).1
    have hrlang : r.targetLang = lang :=
      of_decide_eq_true (List.mem_filter.mp hrfil).2
    rw [ClientService.flushQueue, List.mem_flatMap]
    refine ⟨lang, ?_, ?_⟩
    · rw [← hrlang]
      exact ClientService.distinctLangs_complete queue r hrq
    · rw [List.mem_flatMap]
      refine ⟨chunk, hchunk, ?_⟩
      rw [ClientService.processChunk, hfetch]
      exact List.mem_map.mpr ⟨r, hr, rfl⟩

/-- C5 (witness): a two-request queue whose single chunk fails; both
settlements are resolutions with the original text, and the settled
requests are a permutation of the queue. -/
theorem client_flushQueue_settlement_witness :
    ((ClientService.flushQueue (fun _ _ => none)
        [{ text := "Hello", targetLang := "fr" },
         { text := "World", targetLang := "fr" }]).map Prod.fst).Perm
      [{ text := "Hello", targetLang := "fr" },
       { text := "World", targetLang := "fr" }] ∧
    ({ text := "Hello", targetLang := "fr" },
        ClientService.Outcome.resolved "Hello") ∈
      ClientService.flushQueue (fun _ _ => none)
        [{ text := "Hello", targetLang := "fr" },
         { text := "World", targetLang := "fr" }] :=
  ⟨(client_flushQueue_settlement (fun _ _ => none)
      [{ text := "Hello", targetLang := "fr" },
       { text := "World", targetLang := "fr" }]).1,
   (client_flushQueue_settlement (fun _ _ => none)
      [{ text := "Hello", targetLang := "fr" },
       { text := "World", targetLang := "fr" }]).2.2 "fr"
     [{ text := "Hello", targetLang := "fr" },
      { text := "World", targetLang := "fr" }]
     (by decide) rfl { text := "Hello", targetLang := "fr" } (by decide)⟩

namespace RateLimit

/-!
## Translation API route (`src/app/api/translate/route.ts`)

The module-level `requestCounts` map is modelled as an association list
from client IP to its rate record; `Date.now()` becomes the explicit `now`
argument.  `POST` is modelled on an already-extracted client IP and an
already-parsed body (`none` models a request whose JSON parsing throws,
which the route's `catch` turns into a 500 fallback response).  Of the
response headers only `Retry-After` is modelled (`X-RateLimit-Remaining`
carries no logic); the `skipped`/`message` fields of the same-language
short-circuit are likewise omitted — only `status`, `Retry-After` and
`translations` are kept. -/

def RATE_LIMIT : Nat := 100

def RATE_WINDOW : Nat := 60 * 1000

/-- A value of the `requestCounts` map. -/
structure RateRecord where
  count : Nat
  resetTime : Nat
deriving DecidableEq, Repr

/-- `requestCounts.get(ip)`. -/
def lookupRecord : List (String × RateRecord) → String → Option RateRecord
  | [], _ => none
  | (k, v) :: rest, ip => if k = ip then some v else lookupRecord rest ip

/-- `requestCounts.set(ip, record)` (and in-place mutation of a record). -/
def setRecord : List (String × RateRecord) → String → RateRecord →
    List (String × RateRecord)
  | [], ip, v => [(ip, v)]
  | (k, w) :: rest, ip, v =>
      if k = ip then (k, v) :: rest else (k, w) :: setRecord rest ip v

/-- `getRateLimitInfo(ip)`: lazily resets the window on the first request
past expiry, rejects once the count reaches the limit, otherwise counts the
request.  Returns `(allowed, remaining)` and the updated map. -/
def getRateLimitInfo (now : Nat) (st : List (String × RateRecord))
    (ip : String) : (Bool × Nat) × List (String × RateRecord) :=
  match lookupRecord st ip with
  | none =>
      ((true, RATE_LIMIT - 1), setRecord st ip ⟨1, now + RATE_WINDOW⟩)
  | some record =>
      if now > record.resetTime then
        ((true, RATE_LIMIT - 1), setRecord st ip ⟨1, now + RATE_WINDOW⟩)
      else if record.count ≥ RATE_LIMIT then ((false, 0), st)
      else ((true, RATE_LIMIT - (record.count + 1)),
        setRecord st ip ⟨record.count + 1, record.resetTime⟩)

/-- Route-local `DEEPL_TARGET_MAP` (the route has its own copy, smaller
than the client's). -/
def DEEPL_TARGET_MAP : List (String × String) :=
  [("en", "EN-US"), ("en-us", "EN-US"), ("en-gb", "EN-GB"),
   ("pt", "PT-BR"), ("pt-br", "PT-BR"), ("pt-pt", "PT-PT"),
   ("zh", "ZH-HANS"), ("zh-cn", "ZH-HANS"), ("zh-tw", "ZH-HANT"),
   ("de", "DE"), ("es", "ES"), ("fr", "FR"), ("ja", "JA"), ("ko", "KO"),
   ("it", "IT"), ("nl", "NL"), ("pl", "PL"), ("ru", "RU"), ("ar", "AR"),
   ("bg", "BG"), ("cs", "CS"), ("da", "DA"), ("el", "EL"), ("et", "ET"),
   ("fi", "FI"), ("hu", "HU"), ("id", "ID"), ("lt", "LT"), ("lv", "LV"),
   ("nb", "NB"), ("ro", "RO"), ("sk", "SK"), ("sl", "SL"), ("sv", "SV"),
   ("tr", "TR"), ("uk", "UK")]

/-- Route-local `toDeepLTarget` (exact map hit, then base-language hit,
then `EN-US`). -/
def toDeepLTarget (locale : String) : String :=
  match ClientCache.lookupKV DEEPL_TARGET_MAP (jsToLower locale) with
  | some code => code
  | none =>
      match ClientCache.lookupKV DEEPL_TARGET_MAP
          (jsSplitHead (jsToLower locale) '-') with
      | some code => code
      | none => "EN-US"

/-- A successfully parsed request body. -/
structure TranslateRequest where
  texts : List String
  targetLang : String
  sourceLang : Option String
deriving DecidableEq, Repr

/-- The modelled response of the route. -/
structure ApiResponse where
  status : Nat
  retryAfter : Option String
  translations : Option (List String)
deriving DecidableEq, Repr

/-- `POST /api/translate` for one request. -/
def POST (env : Deepl.Env) (now : Nat) (st : List (String × RateRecord))
    (ip : String) (body : Option TranslateRequest) :
    ApiResponse × List (String × RateRecord) :=
  match getRateLimitInfo now st ip with
  | ((allowed, _remaining), st') =>
    if allowed = false then
      ({ status := 429, retryAfter := some "60", translations := none }, st')
    else
      match body with
      | none =>
          -- `request.json()` threw: `catch` responds 500 with the fallback
          -- translations from the (also unparsable) cloned body
          ({ status := 500, retryAfter := none, translations := some [] }, st')
      | some b =>
          if b.texts.length = 0 then
            ({ status := 400, retryAfter := none, translations := none }, st')
          else if b.targetLang = "" then
            ({ status := 400, retryAfter := none, translations := none }, st')
          else if 100 < b.texts.length then
            ({ status := 400, retryAfter := none, translations := none }, st')
          else
            let deeplTargetLang := toDeepLTarget b.targetLang
            let deeplSourceLang : Option String :=
              match b.sourceLang with
              | some s => if s = "" then none else some (toDeepLTarget s)
              | none => none
            match deeplSourceLang with
            | some ds =>
                if jsToLower (jsSplitHead deeplTargetLang '-') =
                    jsToLower (jsSplitHead ds '-') then
                  ({ status := 200, retryAfter := none,
                     translations := some b.texts }, st')
                else
                  ({ status := 200, retryAfter := none,
                     translations := some (Deepl.translateBatch env b.texts
                       (some ds) deeplTargetLang).1 }, st')
            | none =>
                ({ status := 200, retryAfter := none,
                   translations := some (Deepl.translateBatch env b.texts
                     none deeplTargetLang).1 }, st')

/-- Test driver: feed a sequence of `(Date.now(), body)` requests from one
client IP through `POST`, threading the rate-limit state. -/
def processRequests (env : Deepl.Env) (ip : String) :
    List (Nat × Option TranslateRequest) → List (String × RateRecord) →
      List ApiResponse × List (String × RateRecord)
  | [], st => ([], st)
  | (now, body) :: rest, st =>
      let r := POST env now st ip body
      let rec' := processRequests env ip rest r.2
      (r.1 :: rec'.1, rec'.2)

/-- A body the route's validation accepts. -/
def ValidBody (body : Option TranslateRequest) : Prop :=
  ∃ b, body = some b ∧ b.texts.length ≠ 0 ∧ b.texts.length ≤ 100 ∧
    b.targetLang ≠ ""

theorem lookupRecord_setRecord_self (st : List (String × RateRecord))
    (ip : String) (v : RateRecord) :
    lookupRecord (setRecord st ip v) ip = some v := by
  induction st with
  | nil => simp [setRecord, lookupRecord]
  | cons hd tl ih =>
      obtain ⟨k, w⟩ := hd
      by_cases h : k = ip <;> simp [setRecord, lookupRecord, h, ih]

/-- A rate-limited request is answered 429 with `Retry-After: 60`,
regardless of its body. -/
theorem POST_denied (env : Deepl.Env) (now : Nat)
    (st : List (String × RateRecord)) (ip : String)
    (body : Option TranslateRequest)
    (h : (getRateLimitInfo now st ip).1.1 = false) :
    POST env now st ip body =
      ({ status := 429, retryAfter := some "60", translations := none },
        (getRateLimitInfo now st ip).2) := by
  rcases hrl : getRateLimitInfo now st ip with ⟨⟨allowed, remaining⟩, st'⟩
  rw [hrl] at h
  dsimp at h
  unfold POST
  rw [hrl, h]
  rfl

/-- An allowed request with a valid body is answered with status 200. -/
theorem POST_allowed_valid (env : Deepl.Env) (now : Nat)
    (st : List (String × RateRecord)) (ip : String)
    (body : Option TranslateRequest) (hvalid : ValidBody body)
    (hallowed : (getRateLimitInfo now st ip).1.1 = true) :
    (POST env now st ip body).1.status = 200 ∧
    (POST env now st ip body).2 = (getRateLimitInfo now st ip).2 := by
  obtain ⟨b, rfl, hne, hle, htgt⟩ := hvalid
  unfold POST
  rcases hrl : getRateLimitInfo now st ip with ⟨⟨allowed, remaining⟩, st'⟩
  rw [hrl] at hallowed
  dsimp at hallowed ⊢
  rw [hallowed]
  have h100 : ¬ (100 < b.texts.length) := by omega
  simp only [hne, htgt, h100, if_false, if_neg (by simp : ¬ (true = false))]
  rcases b.sourceLang with _ | s
  · exact ⟨rfl, rfl⟩
  · dsimp only
    by_cases hs : s = ""
    · simp only [hs, if_pos rfl]
      exact ⟨rfl, rfl⟩
    · simp only [if_neg hs]
      by_cases hskip : jsToLower (jsSplitHead (toDeepLTarget b.targetLang) '-') =
          jsToLower (jsSplitHead (toDeepLTarget s) '-')
      · simp only [if_pos hskip]
        exact ⟨trivial, trivial⟩
      · simp only [if_neg hskip]
        exact ⟨trivial, trivial⟩

theorem processRequests_in_window (env : Deepl.Env) (ip : String) :
    ∀ (reqs : List (Nat × Option TranslateRequest))
      (st : List (String × RateRecord)) (c R : Nat),
      lookupRecord st ip = some ⟨c, R⟩ →
      (∀ p ∈ reqs, p.1 ≤ R) →
      (∀ p ∈ reqs, ValidBody p.2) →
      c + reqs.length ≤ RATE_LIMIT →
      (∀ resp ∈ (processRequests env ip reqs st).1, resp.status = 200) ∧
      lookupRecord (processRequests env ip reqs st).2 ip =
        some ⟨c + reqs.length, R⟩ := by
  intro reqs
  induction reqs with
  | nil =>
      intro st c R hrec _ _ _
      exact ⟨by simp [processRequests], by simpa [processRequests] using hrec⟩
  | cons p rest ih =>
      obtain ⟨now, body⟩ := p
      intro st c R hrec htime hbody hcount
      have hnow : now ≤ R := htime (now, body) (List.mem_cons_self _ _)
      have hc : c < RATE_LIMIT := by
        simp only [List.length_cons] at hcount
        omega
      have hrli : getRateLimitInfo now st ip =
          ((true, RATE_LIMIT - (c + 1)), setRecord st ip ⟨c + 1, R⟩) := by
        unfold getRateLimitInfo
        rw [hrec]
        dsimp only
        rw [if_neg (by omega : ¬ now > R), if_neg (by omega : ¬ c ≥ RATE_LIMIT)]
      have hpost := POST_allowed_valid env now st ip body
        (hbody _ (List.mem_cons_self _ _)) (by rw [hrli])
      have hst1 : (POST env now st ip body).2 = setRecord st ip ⟨c + 1, R⟩ := by
        rw [hpost.2, hrli]
      have hlk1 : lookupRecord (POST env now st ip body).2 ip =
          some ⟨c + 1, R⟩ := by
        rw [hst1]; exact lookupRecord_setRecord_self st ip _
      have hrest := ih (POST env now st ip body).2 (c + 1) R hlk1
        (fun q hq => htime q (List.mem_cons_of_mem _ hq))
        (fun q hq => hbody q (List.mem_cons_of_mem _ hq))
        (by simp only [List.length_cons] at hcount; omega)
      have hshape : processRequests env ip ((now, body) :: rest) st =
          ((POST env now st ip body).1 ::
            (processRequests env ip rest (POST env now st ip body).2).1,
           (processRequests env ip rest (POST env now st ip body).2).2) := rfl
      rw [hshape]
      refine ⟨?_, ?_⟩
      · intro resp hresp
        rcases List.mem_cons.mp hresp with rfl | hresp
        · exact hpost.1
        · exact hrest.1 resp hresp
      · have harith : c + 1 + rest.length = c + (rest.length + 1) := by omega
        simpa [harith] using hrest.2

theorem processRequests_append (env : Deepl.Env) (ip : String)
    (xs ys : List (Nat × Option TranslateRequest)) :
    ∀ st, processRequests env ip (xs ++ ys) st =
      ((processRequests env ip xs st).1 ++
        (processRequests env ip ys (processRequests env ip xs st).2).1,
       (processRequests env ip ys (processRequests env ip xs st).2).2) := by
  induction xs with
  | nil => intro st; rfl
  | cons p rest ih =>
      obtain ⟨now, body⟩ := p
      intro st
      have hshape : processRequests env ip ((now, body) :: (rest ++ ys)) st =
          ((POST env now st ip body).1 ::
            (processRequests env ip (rest ++ ys) (POST env now st ip body).2).1,
           (processRequests env ip (rest ++ ys) (POST env now st ip body).2).2) :=
        rfl
      rw [List.cons_append, hshape, ih]
      rfl

theorem processRequests_length (env : Deepl.Env) (ip : String)
    (reqs : List (Nat × Option TranslateRequest)) :
    ∀ st, (processRequests env ip reqs st).1.length = reqs.length := by
  induction reqs with
  | nil => intro st; rfl
  | cons p rest ih =>
      obtain ⟨now, body⟩ := p
      intro st
      have hshape : processRequests env ip ((now, body) :: rest) st =
          ((POST env now st ip body).1 ::
            (processRequests env ip rest (POST env now st ip body).2).1,
           (processRequests env ip rest (POST env now st ip body).2).2) := rfl
      rw [hshape, List.length_cons, ih]
      rfl

end RateLimit

/-- C6: 101 `POST` requests from one client IP, all inside the window
opened by the first request (one opening request, 99 further requests, then
the 101st): with valid payloads the first 100 are answered with status 200,
while the 101st is answered 429 with a `Retry-After` header — regardless of
its payload, since rate limiting precedes parsing.  The final conjunct is
the lazy reset: a request past the stored expiry rebuilds the record with
count 1 and a fresh window (there is no background timer in the model —
state changes only inside `getRateLimitInfo`). -/
theorem translate_rate_limit_101 (env : Deepl.Env) (ip : String)
    (st0 : List (String × RateLimit.RateRecord)) (t0 : Nat)
    (b0 : Option RateLimit.TranslateRequest)
    (mid : List (Nat × Option RateLimit.TranslateRequest))
    (tlast : Nat) (blast : Option RateLimit.TranslateRequest)
    (hfresh : RateLimit.lookupRecord st0 ip = none)
    (hmidlen : mid.length = 99)
    (hmidtime : ∀ p ∈ mid, p.1 ≤ t0 + RateLimit.RATE_WINDOW)
    (hlasttime : tlast ≤ t0 + RateLimit.RATE_WINDOW)
    (hb0 : RateLimit.ValidBody b0)
    (hmidbody : ∀ p ∈ mid, RateLimit.ValidBody p.2) :
    (∀ resp ∈ (RateLimit.processRequests env ip
        ((t0, b0) :: (mid ++ [(tlast, blast)])) st0).1.take 100,
      resp.status = 200) ∧
    (RateLimit.processRequests env ip
        ((t0, b0) :: (mid ++ [(tlast, blast)])) st0).1[100]? =
      some { status := 429, retryAfter := some "60", translations := none } ∧
    (∀ (now : Nat) (st : List (String × RateLimit.RateRecord))
        (record : RateLimit.RateRecord),
      RateLimit.lookupRecord st ip = some record → record.resetTime < now →
      RateLimit.getRateLimitInfo now st ip =
        ((true, RateLimit.RATE_LIMIT - 1),
          RateLimit.setRecord st ip ⟨1, now + RateLimit.RATE_WINDOW⟩)) := by
  have hrli0 : RateLimit.getRateLimitInfo t0 st0 ip =
      ((true, RateLimit.RATE_LIMIT - 1),
        RateLimit.setRecord st0 ip ⟨1, t0 + RateLimit.RATE_WINDOW⟩) := by
    unfold RateLimit.getRateLimitInfo
    rw [hfresh]
  have hpost0 := RateLimit.POST_allowed_valid env t0 st0 ip b0 hb0 (by rw [hrli0])
  have hst1 : (RateLimit.POST env t0 st0 ip b0).2 =
      RateLimit.setRecord st0 ip ⟨1, t0 + RateLimit.RATE_WINDOW⟩ := by
    rw [hpost0.2, hrli0]
  have hlk1 : RateLimit.lookupRecord (RateLimit.POST env t0 st0 ip b0).2 ip =
      some ⟨1, t0 + RateLimit.RATE_WINDOW⟩ := by
    rw [hst1]; exact RateLimit.lookupRecord_setRecord_self st0 ip _
  have hmid := RateLimit.processRequests_in_window env ip mid
    (RateLimit.POST env t0 st0 ip b0).2 1 (t0 + RateLimit.RATE_WINDOW)
    hlk1 hmidtime hmidbody
    (by rw [hmidlen]; norm_num [RateLimit.RATE_LIMIT])
  have hlk2 : RateLimit.lookupRecord
      (RateLimit.processRequests env ip mid (RateLimit.POST env t0 st0 ip b0).2).2
      ip = some ⟨100, t0 + RateLimit.RATE_WINDOW⟩ := by
    have := hmid.2
    rw [hmidlen] at this
    exact this
  have hrlilast : RateLimit.getRateLimitInfo tlast
      (RateLimit.processRequests env ip mid
        (RateLimit.POST env t0 st0 ip b0).2).2 ip =
      ((false, 0),
        (RateLimit.processRequests env ip mid
          (RateLimit.POST env t0 st0 ip b0).2).2) := by
    unfold RateLimit.getRateLimitInfo
    rw [hlk2]
    dsimp only
    rw [if_neg (by omega : ¬ tlast > t0 + RateLimit.RATE_WINDOW)]
    rw [if_pos (by norm_num [RateLimit.RATE_LIMIT] :
      (100 : Nat) ≥ RateLimit.RATE_LIMIT)]
  have hpostlast : RateLimit.POST env tlast
      (RateLimit.processRequests env ip mid
        (RateLimit.POST env t0 st0 ip b0).2).2 ip blast =
      ({ status := 429, retryAfter := some "60", translations := none },
        (RateLimit.processRequests env ip mid
          (RateLimit.POST env t0 st0 ip b0).2).2) := by
    rw [RateLimit.POST_denied env tlast
      (RateLimit.processRequests env ip mid
        (RateLimit.POST env t0 st0 ip b0).2).2 ip blast (by rw [hrlilast]),
      hrlilast]
  have hshape : RateLimit.processRequests env ip
      ((t0, b0) :: (mid ++ [(tlast, blast)])) st0 =
      ((RateLimit.POST env t0 st0 ip b0).1 ::
        (RateLimit.processRequests env ip (mid ++ [(tlast, blast)])
          (RateLimit.POST env t0 st0 ip b0).2).1,
       (RateLimit.processRequests env ip (mid ++ [(tlast, blast)])
          (RateLimit.POST env t0 st0 ip b0).2).2) := rfl
  have happ := RateLimit.processRequests_append env ip mid [(tlast, blast)]
    (RateLimit.POST env t0 st0 ip b0).2
  have hsingle : RateLimit.processRequests env ip [(tlast, blast)]
      (RateLimit.processRequests env ip mid
        (RateLimit.POST env t0 st0 ip b0).2).2 =
      ([{ status := 429, retryAfter := some "60", translations := none }],
        (RateLimit.processRequests env ip mid
          (RateLimit.POST env t0 st0 ip b0).2).2) := by
    have hs : RateLimit.processRequests env ip [(tlast, blast)]
        (RateLimit.processRequests env ip mid
          (RateLimit.POST env t0 st0 ip b0).2).2 =
        ((RateLimit.POST env tlast
            (RateLimit.processRequests env ip mid
              (RateLimit.POST env t0 st0 ip b0).2).2 ip blast).1 ::
          ([] : List RateLimit.ApiResponse),
         (RateLimit.POST env tlast
            (RateLimit.processRequests env ip mid
              (RateLimit.POST env t0 st0 ip b0).2).2 ip blast).2) := rfl
    rw [hs, hpostlast]
  have hmidlen' : (RateLimit.processRequests env ip mid
      (RateLimit.POST env t0 st0 ip b0).2).1.length = 99 := by
    rw [RateLimit.processRequests_length, hmidlen]
  have hresps : (RateLimit.processRequests env ip
      ((t0, b0) :: (mid ++ [(tlast, blast)])) st0).1 =
      (RateLimit.POST env t0 st0 ip b0).1 ::
        ((RateLimit.processRequests env ip mid
            (RateLimit.POST env t0 st0 ip b0).2).1 ++
          [{ status := 429, retryAfter := some "60", translations := none }]) := by
    rw [hshape, happ, hsingle]
  refine ⟨?_, ?_, ?_⟩
  · intro resp hresp
    rw [hresps] at hresp
    rw [show (100 : Nat) = 99 + 1 from rfl, List.take_succ_cons] at hresp
    rw [List.take_left' hmidlen'] at hresp
    rcases List.mem_cons.mp hresp with rfl | hresp
    · exact hpost0.1
    · exact hmid.1 resp hresp
  · rw [hresps]
    rw [show (100 : Nat) = 99 + 1 from rfl, List.getElem?_cons_succ]
    rw [List.getElem?_append_right (by rw [hmidlen']), hmidlen']
    rfl
  · intro now st record hrec hexp
    unfold RateLimit.getRateLimitInfo
    rw [hrec]
    dsimp only
    rw [if_pos (show now > record.resetTime from hexp)]

/-- C6 (witness): the concrete 101-request scenario — fresh state, all
requests at the same instant with the same valid single-text payload; the
take-100 prefix is all-200 and the 101st response is the 429 with
`Retry-After: 60`, and the lazy reset applied to an expired record. -/
theorem translate_rate_limit_101_witness :
    (∀ resp ∈ (RateLimit.processRequests Deepl.demoEnv "10.0.0.1"
        ((0, some { texts := ["Hi"], targetLang := "fr", sourceLang := none }) ::
          (List.replicate 99
            ((0 : Nat),
              some ({ texts := ["Hi"], targetLang := "fr", sourceLang := none } : RateLimit.TranslateRequest)) ++
            [(0, none)])) []).1.take 100,
      resp.status = 200) ∧
    (RateLimit.processRequests Deepl.demoEnv "10.0.0.1"
        ((0, some { texts := ["Hi"], targetLang := "fr", sourceLang := none }) ::
          (List.replicate 99
            ((0 : Nat),
              some ({ texts := ["Hi"], targetLang := "fr", sourceLang := none } : RateLimit.TranslateRequest)) ++
            [(0, none)])) []).1[100]? =
      some { status := 429, retryAfter := some "60", translations := none } ∧
    (∀ (now : Nat) (st : List (String × RateLimit.RateRecord))
        (record : RateLimit.RateRecord),
      RateLimit.lookupRecord st "10.0.0.1" = some record →
      record.resetTime < now →
      RateLimit.getRateLimitInfo now st "10.0.0.1" =
        ((true, RateLimit.RATE_LIMIT - 1),
          RateLimit.setRecord st "10.0.0.1" ⟨1, now + RateLimit.RATE_WINDOW⟩)) :=
  translate_rate_limit_101 Deepl.demoEnv "10.0.0.1" [] 0
    (some { texts := ["Hi"], targetLang := "fr", sourceLang := none })
    (List.replicate 99
      ((0 : Nat),
        some ({ texts := ["Hi"], targetLang := "fr", sourceLang := none } : RateLimit.TranslateRequest)))
    0 none
    rfl (List.length_replicate _ _)
    (fun p hp => by
      rw [List.eq_of_mem_replicate hp]
      exact Nat.zero_le _)
    (Nat.zero_le _)
    ⟨_, rfl, by decide, by decide, by decide⟩
    (fun p hp => by
      rw [List.eq_of_mem_replicate hp]
      exact ⟨_, rfl, by decide, by decide, by decide⟩)

namespace LangCodes

/-!
## Client language-code registry (`src/lib/translation/client/language-codes.ts`)
and language-preference context
(`src/components/translation/TranslationContext.tsx`)
-/

/-- A value of the `SUPPORTED_LANGUAGES` object. -/
structure LanguageInfo where
  displayName : String
  nativeName : String
  deeplCode : String
deriving DecidableEq, Repr

/-- The client-side supported-language registry (`name` is modelled as
`displayName`). -/
def SUPPORTED_LANGUAGES : List (String × LanguageInfo) :=
  [("en", ⟨"English", "English", "EN-US"⟩),
   ("de", ⟨"German", "Deutsch", "DE"⟩),
   ("es", ⟨"Spanish", "Español", "ES"⟩),
   ("fr", ⟨"French", "Français", "FR"⟩),
   ("it", ⟨"Italian", "Italiano", "IT"⟩),
   ("ja", ⟨"Japanese", "日本語", "JA"⟩),
   ("ko", ⟨"Korean", "한국어", "KO"⟩),
   ("nl", ⟨"Dutch", "Nederlands", "NL"⟩),
   ("pl", ⟨"Polish", "Polski", "PL"⟩),
   ("pt", ⟨"Portuguese", "Português", "PT-BR"⟩),
   ("ru", ⟨"Russian", "Русский", "RU"⟩),
   ("zh", ⟨"Chinese", "中文", "ZH-HANS"⟩),
   ("ar", ⟨"Arabic", "العربية", "AR"⟩),
   ("bg", ⟨"Bulgarian", "Български", "BG"⟩),
   ("cs", ⟨"Czech", "Čeština", "CS"⟩),
   ("da", ⟨"Danish", "Dansk", "DA"⟩),
   ("el", ⟨"Greek", "Ελληνικά", "EL"⟩),
   ("et", ⟨"Estonian", "Eesti", "ET"⟩),
   ("fi", ⟨"Finnish", "Suomi", "FI"⟩),
   ("hu", ⟨"Hungarian", "Magyar", "HU"⟩),
   ("id", ⟨"Indonesian", "Bahasa Indonesia", "ID"⟩),
   ("lt", ⟨"Lithuanian", "Lietuvių", "LT"⟩),
   ("lv", ⟨"Latvian", "Latviešu", "LV"⟩),
   ("nb", ⟨"Norwegian", "Norsk", "NB"⟩),
   ("ro", ⟨"Romanian", "Română", "RO"⟩),
   ("sk", ⟨"Slovak", "Slovenčina", "SK"⟩),
   ("sl", ⟨"Slovenian", "Slovenščina", "SL"⟩),
   ("sv", ⟨"Swedish", "Svenska", "SV"⟩),
   ("tr", ⟨"Turkish", "Türkçe", "TR"⟩),
   ("uk", ⟨"Ukrainian", "Українська", "UK"⟩)]

/-- `getBaseLanguage(locale)`: `locale.toLowerCase().split('-')[0]`. -/
def getBaseLanguage (locale : String) : String :=
  jsSplitHead (jsToLower locale) '-'

/-- `isLanguageSupported(locale)`: `getBaseLanguage(locale) in
SUPPORTED_LANGUAGES` (key membership). -/
def isLanguageSupported (locale : String) : Bool :=
  getBaseLanguage locale ∈ SUPPORTED_LANGUAGES.map Prod.fst

/-- Host environment of `getInitialLanguage`: the optional
server-provided `initialLanguage` prop, whether `window` exists, the
`localStorage` preference (`none` when absent or when `getItem` threw) and
`navigator.language || navigator.userLanguage` (`none` when both are
absent). -/
structure InitEnv where
  serverLanguage : Option String
  windowDefined : Bool
  storedPref : Option String
  browserLang : Option String
deriving DecidableEq, Repr

/-- The browser-language fallback step of `getInitialLanguage`, ending at
the default `'en'`. -/
def initialFromBrowser (env : InitEnv) : String :=
  match env.browserLang with
  | some browserLang =>
      if browserLang ≠ "" ∧ isLanguageSupported browserLang = true then
        getBaseLanguage browserLang
      else "en"
  | none => "en"

/-- The client-side (`typeof window !== 'undefined'`) part of
`getInitialLanguage`: `localStorage`, then the browser language, then the
default.  Without a `window` the function falls through to `'en'`. -/
def initialFromClient (env : InitEnv) : String :=
  if env.windowDefined then
    match env.storedPref with
    | some stored =>
        if stored ≠ "" ∧ isLanguageSupported stored = true then
          getBaseLanguage stored
        else initialFromBrowser env
    | none => initialFromBrowser env
  else "en"

/-- `getInitialLanguage(serverLanguage)`: priority server prop >
localStorage > browser language > `'en'`; every accepted candidate is
validated with `isLanguageSupported` and reduced to its base code. -/
def getInitialLanguage (env : InitEnv) : String :=
  match env.serverLanguage with
  | some serverLanguage =>
      if serverLanguage ≠ "" ∧ isLanguageSupported serverLanguage = true then
        getBaseLanguage serverLanguage
      else initialFromClient env
  | none => initialFromClient env

/-- The context state relevant to `setLanguage`: the `currentLanguage` and
`translationVersion` React state, and the `localStorage` mirror maintained
by the `useEffect` on `currentLanguage`. -/
structure LangState where
  currentLanguage : String
  translationVersion : Nat
  persistedLanguage : Option String
deriving DecidableEq, Repr

/-- The observable side effects of one `setLanguage` call: whether
`console.warn` fired, and the language (if any) posted to
`/api/user/language` by the best-effort `syncToProfile`. -/
structure SetLanguageEffects where
  warned : Bool
  syncRequested : Option String
deriving DecidableEq, Repr

/-- `setLanguage(lang)`: normalize; unsupported → warn and fall back to
`'en'`; changed → update, persist, sync, bump `translationVersion`;
unchanged → no-op.  (The persistence `useEffect` re-runs exactly when the
`currentLanguage` state value changes.) -/
def setLanguage (st : LangState) (lang : String) :
    LangState × SetLanguageEffects :=
  let normalized := getBaseLanguage lang
  if isLanguageSupported normalized = false then
    (if st.currentLanguage ≠ "en" then
      { st with currentLanguage := "en", persistedLanguage := some "en" }
     else st,
     { warned := true, syncRequested := none })
  else if normalized ≠ st.currentLanguage then
    ({ currentLanguage := normalized,
       translationVersion := st.translationVersion + 1,
       persistedLanguage := some normalized },
     { warned := false, syncRequested := some normalized })
  else (st, { warned := false, syncRequested := none })

/-! ### Idempotence of `getBaseLanguage` -/

theorem char_toNat_ofNat (n : Nat) (h : n < 55296) : (Char.ofNat n).toNat = n := by
  simp only [Char.ofNat, Nat.isValidChar, Char.toNat, Char.ofNatAux]
  rw [dif_pos (Or.inl h)]
  simp [UInt32.toNat, BitVec.toNat_ofNatLt]

theorem jsToLowerChar_idem (c : Char) :
    jsToLowerChar (jsToLowerChar c) = jsToLowerChar c := by
  unfold jsToLowerChar
  by_cases h : 65 ≤ c.toNat ∧ c.toNat ≤ 90
  · rw [if_pos h]
    have hv : (Char.ofNat (c.toNat + 32)).toNat = c.toNat + 32 :=
      char_toNat_ofNat _ (by omega)
    rw [if_neg (by omega : ¬ (65 ≤ (Char.ofNat (c.toNat + 32)).toNat ∧
      (Char.ofNat (c.toNat + 32)).toNat ≤ 90))]
  · rw [if_neg h, if_neg h]

theorem map_eq_self_of_fixed {α : Type} (f : α → α) :
    ∀ (l : List α), (∀ c ∈ l, f c = c) → l.map f = l := by
  intro l
  induction l with
  | nil => intro _; rfl
  | cons c cs ih =>
      intro h
      rw [List.map_cons, h c (List.mem_cons_self _ _),
        ih (fun d hd => h d (List.mem_cons_of_mem _ hd))]

theorem takeWhile_eq_self_of_forall {α : Type} (p : α → Bool) :
    ∀ (l : List α), (∀ c ∈ l, p c = true) → l.takeWhile p = l := by
  intro l
  induction l with
  | nil => intro _; rfl
  | cons c cs ih =>
      intro h
      rw [List.takeWhile_cons, h c (List.mem_cons_self _ _)]
      simp only [if_true]
      rw [ih (fun d hd => h d (List.mem_cons_of_mem _ hd))]

theorem mem_of_mem_takeWhile {α : Type} (p : α → Bool) :
    ∀ (l : List α) (c : α), c ∈ l.takeWhile p → c ∈ l := by
  intro l
  induction l with
  | nil => intro c hc; exact absurd hc (by simp)
  | cons d ds ih =>
      intro c hc
      rw [List.takeWhile_cons] at hc
      by_cases hp : p d = true
      · rw [if_pos hp] at hc
        rcases List.mem_cons.mp hc with rfl | hc
        · exact List.mem_cons_self _ _
        · exact List.mem_cons_of_mem _ (ih c hc)
      · rw [if_neg hp] at hc
        exact absurd hc (by simp)

theorem toList_mk (l : List Char) : (String.mk l).toList = l := rfl

theorem baseList_idem (xs : List Char) :
    (((xs.map jsToLowerChar).takeWhile (fun c => c ≠ '-')).map
        jsToLowerChar).takeWhile (fun c => c ≠ '-') =
      (xs.map jsToLowerChar).takeWhile (fun c => c ≠ '-') := by
  have hmap : ((xs.map jsToLowerChar).takeWhile
      (fun c => c ≠ '-')).map jsToLowerChar =
      (xs.map jsToLowerChar).takeWhile (fun c => c ≠ '-') := by
    refine map_eq_self_of_fixed jsToLowerChar _ ?_
    intro c hc
    have hcl : c ∈ xs.map jsToLowerChar :=
      mem_of_mem_takeWhile _ _ c hc
    obtain ⟨d, -, rfl⟩ := List.mem_map.mp hcl
    exact jsToLowerChar_idem d
  rw [hmap]
  refine takeWhile_eq_self_of_forall _ _ ?_
  intro c hc
  simpa using List.mem_takeWhile_imp hc

theorem getBaseLanguage_idem (s : String) :
    getBaseLanguage (getBaseLanguage s) = getBaseLanguage s := by
  unfold getBaseLanguage jsSplitHead jsToLower
  simp only [toList_mk]
  rw [baseList_idem]

theorem isLanguageSupported_getBaseLanguage (s : String) :
    isLanguageSupported (getBaseLanguage s) = isLanguageSupported s := by
  unfold isLanguageSupported
  rw [getBaseLanguage_idem]

/-- The C10 invariant: the current language is the default `'en'` or a base
language code in the client registry. -/
def LangInvariant (l : String) : Prop :=
  l = "en" ∨ (isLanguageSupported l = true ∧ getBaseLanguage l = l)

end LangCodes

/-- C9: `setLanguage` is a total function (it never throws).  Given an
unsupported code it falls back to the default `'en'` and emits the warning;
given a supported code whose normalized (base) value differs from the
current language it updates the current value, persists it, requests the
best-effort profile sync, and increments `translationVersion`; given the
current language again it is a no-op with no version bump and no effects. -/
theorem context_setLanguage_spec (st : LangCodes.LangState) (lang : String) :
    (LangCodes.isLanguageSupported (LangCodes.getBaseLanguage lang) = false →
      (LangCodes.setLanguage st lang).1.currentLanguage = "en" ∧
      (LangCodes.setLanguage st lang).2.warned = true ∧
      (LangCodes.setLanguage st lang).1.translationVersion =
        st.translationVersion) ∧
    (LangCodes.isLanguageSupported (LangCodes.getBaseLanguage lang) = true →
      LangCodes.getBaseLanguage lang ≠ st.currentLanguage →
      (LangCodes.setLanguage st lang).1.currentLanguage =
          LangCodes.getBaseLanguage lang ∧
      (LangCodes.setLanguage st lang).1.persistedLanguage =
          some (LangCodes.getBaseLanguage lang) ∧
      (LangCodes.setLanguage st lang).2.syncRequested =
          some (LangCodes.getBaseLanguage lang) ∧
      (LangCodes.setLanguage st lang).1.translationVersion =
        st.translationVersion + 1) ∧
    (LangCodes.isLanguageSupported (LangCodes.getBaseLanguage lang) = true →
      LangCodes.getBaseLanguage lang = st.currentLanguage →
      (LangCodes.setLanguage st lang).1 = st ∧
      (LangCodes.setLanguage st lang).2 =
        { warned := false, syncRequested := none }) := by
  refine ⟨?_, ?_, ?_⟩
  · intro hunsup
    unfold LangCodes.setLanguage
    rw [if_pos hunsup]
    by_cases hcur : st.currentLanguage ≠ "en"
    · rw [if_pos hcur]
      exact ⟨rfl, rfl, rfl⟩
    · rw [if_neg hcur]
      rw [not_not] at hcur
      exact ⟨hcur, rfl, rfl⟩
  · intro hsup hne
    unfold LangCodes.setLanguage
    rw [if_neg (by rw [hsup]; exact Bool.true_eq_false ▸ (by simp)), if_pos hne]
    exact ⟨rfl, rfl, rfl, rfl⟩
  · intro hsup heq
    unfold LangCodes.setLanguage
    rw [if_neg (by rw [hsup]; exact Bool.true_eq_false ▸ (by simp)),
      if_neg (by rw [heq]; exact not_not_intro rfl)]
    exact ⟨rfl, rfl⟩

/-- C9 (witness): a supported switch `'en' → 'fr'` updates, persists,
syncs and bumps the version; an unsupported code `'xx'` warns and falls
back to `'en'` without a version bump. -/
theorem context_setLanguage_spec_witness :
    ((LangCodes.setLanguage
        { currentLanguage := "en", translationVersion := 0,
          persistedLanguage := none } "fr").1.currentLanguage = "fr" ∧
      (LangCodes.setLanguage
        { currentLanguage := "en", translationVersion := 0,
          persistedLanguage := none } "fr").1.persistedLanguage = some "fr" ∧
      (LangCodes.setLanguage
        { currentLanguage := "en", translationVersion := 0,
          persistedLanguage := none } "fr").2.syncRequested = some "fr" ∧
      (LangCodes.setLanguage
        { currentLanguage := "en", translationVersion := 0,
          persistedLanguage := none } "fr").1.translationVersion = 0 + 1) ∧
    ((LangCodes.setLanguage
        { currentLanguage := "fr", translationVersion := 3,
          persistedLanguage := some "fr" } "xx").1.currentLanguage = "en" ∧
      (LangCodes.setLanguage
        { currentLanguage := "fr", translationVersion := 3,
          persistedLanguage := some "fr" } "xx").2.warned = true ∧
      (LangCodes.setLanguage
        { currentLanguage := "fr", translationVersion := 3,
          persistedLanguage := some "fr" } "xx").1.translationVersion = 3) :=
  ⟨(context_setLanguage_spec
      { currentLanguage := "en", translationVersion := 0,
        persistedLanguage := none } "fr").2.1 (by decide) (by decide),
   (context_setLanguage_spec
      { currentLanguage := "fr", translationVersion := 3,
        persistedLanguage := some "fr" } "xx").1 (by decide)⟩

/-- C10: the current-language invariant — the value is the default `'en'`
or a base code contained in the client registry — is established by
`getInitialLanguage` for every environment (every accepted candidate is
validated with `isLanguageSupported` and reduced to its base code) and is
preserved by every `setLanguage` call. -/
theorem context_language_invariant :
    (∀ env : LangCodes.InitEnv,
      LangCodes.LangInvariant (LangCodes.getInitialLanguage env)) ∧
    (∀ (st : LangCodes.LangState) (lang : String),
      LangCodes.LangInvariant st.currentLanguage →
      LangCodes.LangInvariant
        (LangCodes.setLanguage st lang).1.currentLanguage) := by
  have hbase : ∀ s : String, LangCodes.isLanguageSupported s = true →
      LangCodes.LangInvariant (LangCodes.getBaseLanguage s) := by
    intro s hs
    refine Or.inr ⟨?_, LangCodes.getBaseLanguage_idem s⟩
    rw [LangCodes.isLanguageSupported_getBaseLanguage]
    exact hs
  constructor
  · intro env
    unfold LangCodes.getInitialLanguage
    have hclient : LangCodes.LangInvariant (LangCodes.initialFromClient env) := by
      unfold LangCodes.initialFromClient
      have hbrowser : LangCodes.LangInvariant
          (LangCodes.initialFromBrowser env) := by
        unfold LangCodes.initialFromBrowser
        cases env.browserLang with
        | none => exact Or.inl rfl
        | some browserLang =>
            dsimp only
            by_cases h : browserLang ≠ "" ∧
                LangCodes.isLanguageSupported browserLang = true
            · rw [if_pos h]; exact hbase _ h.2
            · rw [if_neg h]; exact Or.inl rfl
      by_cases hw : env.windowDefined = true
      · rw [if_pos hw]
        cases env.storedPref with
        | none => exact hbrowser
        | some stored =>
            dsimp only
            by_cases h : stored ≠ "" ∧
                LangCodes.isLanguageSupported stored = true
            · rw [if_pos h]; exact hbase _ h.2
            · rw [if_neg h]; exact hbrowser
      · rw [if_neg hw]; exact Or.inl rfl
    cases env.serverLanguage with
    | none => exact hclient
    | some serverLanguage =>
        dsimp only
        by_cases h : serverLanguage ≠ "" ∧
            LangCodes.isLanguageSupported serverLanguage = true
        · rw [if_pos h]; exact hbase _ h.2
        · rw [if_neg h]; exact hclient
  · intro st lang hinv
    unfold LangCodes.setLanguage
    by_cases hsup : LangCodes.isLanguageSupported
        (LangCodes.getBaseLanguage lang) = false
    · rw [if_pos hsup]
      by_cases hcur : st.currentLanguage ≠ "en"
      · rw [if_pos hcur]; exact Or.inl rfl
      · rw [if_neg hcur]
        rw [not_not] at hcur
        exact Or.inl hcur
    · rw [if_neg hsup]
      have hsup' : LangCodes.isLanguageSupported
          (LangCodes.getBaseLanguage lang) = true := by
        revert hsup
        cases LangCodes.isLanguageSupported (LangCodes.getBaseLanguage lang) <;>
          simp
      by_cases hne : LangCodes.getBaseLanguage lang ≠ st.currentLanguage
      · rw [if_pos hne]
        refine Or.inr ⟨?_, ?_⟩
        · rw [LangCodes.isLanguageSupported_getBaseLanguage]
          rw [← LangCodes.isLanguageSupported_getBaseLanguage]
          exact hsup'
        · exact LangCodes.getBaseLanguage_idem lang
      · rw [if_neg hne]
        exact hinv

/-- C10 (witness): the invariant established by a concrete initialization
(browser language `'fr-CA'` accepted and reduced to `'fr'`) and preserved
by a concrete `setLanguage` call from an invariant-satisfying state. -/
theorem context_language_invariant_witness :
    LangCodes.LangInvariant
      (LangCodes.getInitialLanguage
        { serverLanguage := none, windowDefined := true, storedPref := none,
          browserLang := some "fr-CA" }) ∧
    LangCodes.LangInvariant
      (LangCodes.setLanguage
        { currentLanguage := "en", translationVersion := 0,
          persistedLanguage := none } "pt-BR").1.currentLanguage :=
  ⟨context_language_invariant.1
      { serverLanguage := none, windowDefined := true, storedPref := none,
        browserLang := some "fr-CA" },
   context_language_invariant.2
      { currentLanguage := "en", translationVersion := 0,
        persistedLanguage := none } "pt-BR" (Or.inl rfl)⟩

namespace Translator

/-!
## Global Translator revert path
(`src/components/translation/GlobalTranslator.tsx`)

For the language-switch claim only the language-change effect's dispatch
and `revertTranslations` are needed.  The DOM is modelled as a flat list of
elements, each carrying its attribute map, class list and text content;
`document.querySelectorAll('[attr]')` + per-element mutation becomes a
guarded map over the list (elements without the marker are untouched,
exactly as with a selector).  The `pendingOurMutations` one-shot observer
suppression set has no effect on the reverted DOM content and is not
modelled here.
-/

/-- Attributes that should be translated. -/
def TRANSLATABLE_ATTRS : List String :=
  ["placeholder", "title", "aria-label", "aria-placeholder",
   "aria-description", "alt"]

/-- A DOM element: tag, attribute map, class list, text content. -/
structure Elem where
  tagName : String
  attrs : List (String × String)
  classes : List String
  textContent : String
deriving DecidableEq, Repr

/-- `element.getAttribute(n)` (`none` models `null`). -/
def getAttribute (e : Elem) (n : String) : Option String :=
  ClientCache.lookupKV e.attrs n

/-- `element.hasAttribute(n)`. -/
def hasAttribute (e : Elem) (n : String) : Bool :=
  (getAttribute e n).isSome

/-- `element.setAttribute(n, v)`. -/
def setAttribute (e : Elem) (n v : String) : Elem :=
  { e with attrs := ClientCache.insertKV e.attrs n v }

/-- `element.removeAttribute(n)`. -/
def removeAttribute (e : Elem) (n : String) : Elem :=
  { e with attrs := e.attrs.filter (fun p => p.1 ≠ n) }

/-- `element.classList.remove(c)`. -/
def classListRemove (e : Elem) (c : String) : Elem :=
  { e with classes := e.classes.filter (fun d => d ≠ c) }

/-- Body of the text-node loop of `revertTranslations` for one marked
element: restore `textContent` when the stored original is truthy and
differs, then unconditionally drop the marker and the `translated` class. -/
def revertTextElem (e : Elem) : Elem :=
  let e1 :=
    match getAttribute e "data-original-text" with
    | some original =>
        if original ≠ "" ∧ e.textContent ≠ original then
          { e with textContent := original }
        else e
    | none => e
  classListRemove (removeAttribute e1 "data-original-text") "translated"

/-- Body of the attribute loop of `revertTranslations` for one marked
element and one translatable attribute: when the stored original is truthy,
restore the attribute and drop the marker. -/
def revertAttrElem (attr : String) (e : Elem) : Elem :=
  match getAttribute e ("data-original-" ++ attr) with
  | some original =>
      if original ≠ "" then
        removeAttribute (setAttribute e attr original) ("data-original-" ++ attr)
      else e
  | none => e

/-- One element of `document.querySelectorAll('[data-original-text]')`
processing: elements without the marker are untouched. -/
def textPass (e : Elem) : Elem :=
  if hasAttribute e "data-original-text" then revertTextElem e else e

/-- One element of
`document.querySelectorAll('[data-original-<attr>]')` processing. -/
def attrPass (attr : String) (e : Elem) : Elem :=
  if hasAttribute e ("data-original-" ++ attr) then revertAttrElem attr e else e

/-- `revertTranslations()`: the text-node pass, then one pass per
translatable attribute. -/
def revertTranslations (doc : List Elem) : List Elem :=
  TRANSLATABLE_ATTRS.foldl (fun d attr => d.map (attrPass attr))
    (doc.map textPass)

/-- The per-element composition the six passes amount to. -/
def revertElem (e : Elem) : Elem :=
  attrPass "alt" (attrPass "aria-description" (attrPass "aria-placeholder"
    (attrPass "aria-label" (attrPass "title" (attrPass "placeholder"
      (textPass e))))))

/-- The action the language-change effect dispatches from
`(previousLanguage, currentLanguage, isInitialMount)`. -/
inductive LanguageAction where
  | noop
  | revert
  | initialScan
  | scanFullPage
  | resetAndRescan
deriving DecidableEq, Repr

/-- Dispatch of the language-change `useEffect`. -/
def languageEffectAction (previousLanguage currentLanguage : String)
    (isInitialMount : Bool) : LanguageAction :=
  if currentLanguage = "en" then
    if isInitialMount = false then .revert else .noop
  else if isInitialMount = true then .initialScan
  else if previousLanguage ≠ currentLanguage then
    if previousLanguage ≠ "en" then .resetAndRescan else .scanFullPage
  else .noop

/-- Marker values the translator itself writes are never empty (they pass
`shouldTranslateText`, so have trimmed length ≥ 2): the hypothesis under
which a marked document reverts completely. -/
def MarkersNonempty (doc : List Elem) : Prop :=
  ∀ e ∈ doc, getAttribute e "data-original-text" ≠ some "" ∧
    ∀ attr ∈ TRANSLATABLE_ATTRS, getAttribute e ("data-original-" ++ attr) ≠ some ""

/-! ### Attribute-map lemmas -/

theorem getAttribute_setAttribute_self (e : Elem) (n v : String) :
    getAttribute (setAttribute e n v) n = some v :=
  ClientCache.lookupKV_insertKV_self e.attrs n v

theorem lookupKV_insertKV_ne (l : List (String × String)) (n v m : String)
    (h : n ≠ m) :
    ClientCache.lookupKV (ClientCache.insertKV l n v) m =
      ClientCache.lookupKV l m := by
  induction l with
  | nil => simp [ClientCache.insertKV, ClientCache.lookupKV, h]
  | cons hd tl ih =>
      obtain ⟨k, w⟩ := hd
      by_cases hk : k = n
      · subst hk
        simp [ClientCache.insertKV, ClientCache.lookupKV, h]
      · simp [ClientCache.insertKV, ClientCache.lookupKV, hk, ih]

theorem getAttribute_setAttribute_ne (e : Elem) (n v m : String) (h : n ≠ m) :
    getAttribute (setAttribute e n v) m = getAttribute e m :=
  lookupKV_insertKV_ne e.attrs n v m h

theorem lookupKV_filter_ne_self (l : List (String × String)) (n : String) :
    ClientCache.lookupKV (l.filter (fun p => p.1 ≠ n)) n = none := by
  induction l with
  | nil => rfl
  | cons hd tl ih =>
      obtain ⟨k, w⟩ := hd
      rw [List.filter_cons]
      by_cases hk : k = n
      · rw [if_neg (by simp [hk])]
        exact ih
      · rw [if_pos (by simp [hk])]
        unfold ClientCache.lookupKV
        rw [if_neg hk]
        exact ih

theorem getAttribute_removeAttribute_self (e : Elem) (n : String) :
    getAttribute (removeAttribute e n) n = none :=
  lookupKV_filter_ne_self e.attrs n

theorem lookupKV_filter_ne_other (l : List (String × String)) (n m : String)
    (h : n ≠ m) :
    ClientCache.lookupKV (l.filter (fun p => p.1 ≠ n)) m =
      ClientCache.lookupKV l m := by
  induction l with
  | nil => rfl
  | cons hd tl ih =>
      obtain ⟨k, w⟩ := hd
      rw [List.filter_cons]
      by_cases hk : k = n
      · rw [if_neg (by simp [hk])]
        have hcons : ClientCache.lookupKV ((k, w) :: tl) m =
            if k = m then some w else ClientCache.lookupKV tl m := rfl
        rw [hcons, if_neg (by rw [hk]; exact h)]
        exact ih
      · rw [if_pos (by simp [hk])]
        unfold ClientCache.lookupKV
        by_cases hm : k = m
        · rw [if_pos hm, if_pos hm]
        · rw [if_neg hm, if_neg hm]
          exact ih

theorem getAttribute_removeAttribute_ne (e : Elem) (n m : String) (h : n ≠ m) :
    getAttribute (removeAttribute e n) m = getAttribute e m :=
  lookupKV_filter_ne_other e.attrs n m h

/-! ### Pass-level lemmas -/

theorem revertTextElem_attrs (e : Elem) (key : String)
    (h : key ≠ "data-original-text") :
    getAttribute (revertTextElem e) key = getAttribute e key := by
  unfold revertTextElem
  cases hga : getAttribute e "data-original-text" with
  | none =>
      dsimp only
      rw [show getAttribute (classListRemove
          (removeAttribute e "data-original-text") "translated") key =
        getAttribute (removeAttribute e "data-original-text") key from rfl]
      rw [getAttribute_removeAttribute_ne _ _ _ (Ne.symm h)]
  | some o =>
      dsimp only
      by_cases hcond : o ≠ "" ∧ e.textContent ≠ o
      · rw [if_pos hcond]
        rw [show getAttribute (classListRemove
            (removeAttribute { e with textContent := o } "data-original-text")
            "translated") key =
          getAttribute (removeAttribute { e with textContent := o }
            "data-original-text") key from rfl]
        rw [getAttribute_removeAttribute_ne _ _ _ (Ne.symm h)]
        rfl
      · rw [if_neg hcond]
        rw [show getAttribute (classListRemove
            (removeAttribute e "data-original-text") "translated") key =
          getAttribute (removeAttribute e "data-original-text") key from rfl]
        rw [getAttribute_removeAttribute_ne _ _ _ (Ne.symm h)]

theorem textPass_attrs (e : Elem) (key : String)
    (h : key ≠ "data-original-text") :
    getAttribute (textPass e) key = getAttribute e key := by
  unfold textPass
  by_cases hhas : hasAttribute e "data-original-text" = true
  · rw [if_pos hhas]
    exact revertTextElem_attrs e key h
  · rw [if_neg hhas]

theorem textPass_resolves (e : Elem) (o : String) (ho : o ≠ "")
    (hm : getAttribute e "data-original-text" = some o) :
    (textPass e).textContent = o ∧
    getAttribute (textPass e) "data-original-text" = none ∧
    "translated" ∉ (textPass e).classes := by
  unfold textPass
  have hhas : hasAttribute e "data-original-text" = true := by
    unfold hasAttribute
    rw [hm]
    rfl
  rw [if_pos hhas]
  unfold revertTextElem
  rw [hm]
  dsimp only
  have hclassmem : ∀ x : Elem,
      "translated" ∉ (classListRemove x "translated").classes := by
    intro x hmem
    rw [show (classListRemove x "translated").classes =
      x.classes.filter (fun d => d ≠ "translated") from rfl] at hmem
    have := (List.mem_filter.mp hmem).2
    simp at this
  by_cases hcond : o ≠ "" ∧ e.textContent ≠ o
  · rw [if_pos hcond]
    refine ⟨rfl, ?_, hclassmem _⟩
    rw [show getAttribute (classListRemove
        (removeAttribute { e with textContent := o } "data-original-text")
        "translated") "data-original-text" =
      getAttribute (removeAttribute { e with textContent := o }
        "data-original-text") "data-original-text" from rfl]
    exact getAttribute_removeAttribute_self _ _
  · rw [if_neg hcond]
    have htext : e.textContent = o := by
      by_cases ht : e.textContent = o
      · exact ht
      · exact absurd ⟨ho, ht⟩ hcond
    refine ⟨htext, ?_, hclassmem _⟩
    rw [show getAttribute (classListRemove
        (removeAttribute e "data-original-text") "translated")
        "data-original-text" =
      getAttribute (removeAttribute e "data-original-text")
        "data-original-text" from rfl]
    exact getAttribute_removeAttribute_self _ _

theorem attrPass_textContent (attr : String) (e : Elem) :
    (attrPass attr e).textContent = e.textContent := by
  unfold attrPass
  by_cases hhas : hasAttribute e ("data-original-" ++ attr) = true
  · rw [if_pos hhas]
    unfold revertAttrElem
    cases getAttribute e ("data-original-" ++ attr) with
    | none => rfl
    | some o =>
        dsimp only
        by_cases ho : o ≠ ""
        · rw [if_pos ho]
          rfl
        · rw [if_neg ho]
  · rw [if_neg hhas]

theorem attrPass_classes (attr : String) (e : Elem) :
    (attrPass attr e).classes = e.classes := by
  unfold attrPass
  by_cases hhas : hasAttribute e ("data-original-" ++ attr) = true
  · rw [if_pos hhas]
    unfold revertAttrElem
    cases getAttribute e ("data-original-" ++ attr) with
    | none => rfl
    | some o =>
        dsimp only
        by_cases ho : o ≠ ""
        · rw [if_pos ho]
          rfl
        · rw [if_neg ho]
  · rw [if_neg hhas]

theorem attrPass_attrs (attr : String) (e : Elem) (key : String)
    (h1 : key ≠ attr) (h2 : key ≠ "data-original-" ++ attr) :
    getAttribute (attrPass attr e) key = getAttribute e key := by
  unfold attrPass
  by_cases hhas : hasAttribute e ("data-original-" ++ attr) = true
  · rw [if_pos hhas]
    unfold revertAttrElem
    cases getAttribute e ("data-original-" ++ attr) with
    | none => rfl
    | some o =>
        dsimp only
        by_cases ho : o ≠ ""
        · rw [if_pos ho]
          rw [getAttribute_removeAttribute_ne _ _ _ (Ne.symm h2)]
          rw [getAttribute_setAttribute_ne _ _ _ _ (Ne.symm h1)]
        · rw [if_neg ho]
  · rw [if_neg hhas]

theorem attrPass_resolves (attr : String) (e : Elem) (o : String)
    (ho : o ≠ "") (hne : ("data-original-" ++ attr) ≠ attr)
    (hm : getAttribute e ("data-original-" ++ attr) = some o) :
    getAttribute (attrPass attr e) attr = some o ∧
    getAttribute (attrPass attr e) ("data-original-" ++ attr) = none := by
  unfold attrPass
  have hhas : hasAttribute e ("data-original-" ++ attr) = true := by
    unfold hasAttribute
    rw [hm]
    rfl
  rw [if_pos hhas]
  unfold revertAttrElem
  rw [hm]
  dsimp only
  rw [if_pos ho]
  constructor
  · rw [getAttribute_removeAttribute_ne _ _ _ hne,
      getAttribute_setAttribute_self]
  · exact getAttribute_removeAttribute_self _ _

theorem revertElem_text (e : Elem) (o : String) (ho : o ≠ "")
    (hm : getAttribute e "data-original-text" = some o) :
    (revertElem e).textContent = o ∧
    getAttribute (revertElem e) "data-original-text" = none ∧
    "translated" ∉ (revertElem e).classes := by
  obtain ⟨ht, ha, hc⟩ := textPass_resolves e o ho hm
  unfold revertElem
  refine ⟨?_, ?_, ?_⟩
  · rw [attrPass_textContent, attrPass_textContent, attrPass_textContent,
      attrPass_textContent, attrPass_textContent, attrPass_textContent]
    exact ht
  · rw [attrPass_attrs _ _ _ (by decide) (by decide),
      attrPass_attrs _ _ _ (by decide) (by decide),
      attrPass_attrs _ _ _ (by decide) (by decide),
      attrPass_attrs _ _ _ (by decide) (by decide),
      attrPass_attrs _ _ _ (by decide) (by decide),
      attrPass_attrs _ _ _ (by decide) (by decide)]
    exact ha
  · rw [attrPass_classes, attrPass_classes, attrPass_classes,
      attrPass_classes, attrPass_classes, attrPass_classes]
    exact hc

theorem revertElem_attr (e : Elem) (attr : String)
    (hattr : attr ∈ TRANSLATABLE_ATTRS) (o : String) (ho : o ≠ "")
    (hm : getAttribute e ("data-original-" ++ attr) = some o) :
    getAttribute (revertElem e) attr = some o ∧
    getAttribute (revertElem e) ("data-original-" ++ attr) = none := by
  unfold revertElem
  fin_cases hattr
  · -- placeholder
    have h0 : getAttribute (textPass e) "data-original-placeholder" = some o := by
      rw [textPass_attrs _ _ (by decide)]
      exact hm
    have h1 := attrPass_resolves "placeholder" (textPass e) o ho (by decide) h0
    constructor
    · rw [attrPass_attrs _ _ _ (by decide) (by decide),
        attrPass_attrs _ _ _ (by decide) (by decide),
        attrPass_attrs _ _ _ (by decide) (by decide),
        attrPass_attrs _ _ _ (by decide) (by decide),
        attrPass_attrs _ _ _ (by decide) (by decide)]
      exact h1.1
    · rw [attrPass_attrs _ _ _ (by decide) (by decide),
        attrPass_attrs _ _ _ (by decide) (by decide),
        attrPass_attrs _ _ _ (by decide) (by decide),
        attrPass_attrs _ _ _ (by decide) (by decide),
        attrPass_attrs _ _ _ (by decide) (by decide)]
      exact h1.2
  · -- title
    have h0 : getAttribute (attrPass "placeholder" (textPass e))
        "data-original-title" = some o := by
      rw [attrPass_attrs _ _ _ (by decide) (by decide),
        textPass_attrs _ _ (by decide)]
      exact hm
    have h1 := attrPass_resolves "title" (attrPass "placeholder" (textPass e))
      o ho (by decide) h0
    constructor
    · rw [attrPass_attrs _ _ _ (by decide) (by decide),
        attrPass_attrs _ _ _ (by decide) (by decide),
        attrPass_attrs _ _ _ (by decide) (by decide),
        attrPass_attrs _ _ _ (by decide) (by decide)]
      exact h1.1
    · rw [attrPass_attrs _ _ _ (by decide) (by decide),
        attrPass_attrs _ _ _ (by decide) (by decide),
        attrPass_attrs _ _ _ (by decide) (by decide),
        attrPass_attrs _ _ _ (by decide) (by decide)]
      exact h1.2
  · -- aria-label
    have h0 : getAttribute (attrPass "title" (attrPass "placeholder"
        (textPass e))) "data-original-aria-label" = some o := by
      rw [attrPass_attrs _ _ _ (by decide) (by decide),
        attrPass_attrs _ _ _ (by decide) (by decide),
        textPass_attrs _ _ (by decide)]
      exact hm
    have h1 := attrPass_resolves "aria-label"
      (attrPass "title" (attrPass "placeholder" (textPass e))) o ho
      (by decide) h0
    constructor
    · rw [attrPass_attrs _ _ _ (by decide) (by decide),
        attrPass_attrs _ _ _ (by decide) (by decide),
        attrPass_attrs _ _ _ (by decide) (by decide)]
      exact h1.1
    · rw [attrPass_attrs _ _ _ (by decide) (by decide),
        attrPass_attrs _ _ _ (by decide) (by decide),
        attrPass_attrs _ _ _ (by decide) (by decide)]
      exact h1.2
  · -- aria-placeholder
    have h0 : getAttribute (attrPass "aria-label" (attrPass "title"
        (attrPass "placeholder" (textPass e))))
        "data-original-aria-placeholder" = some o := by
      rw [attrPass_attrs _ _ _ (by decide) (by decide),
        attrPass_attrs _ _ _ (by decide) (by decide),
        attrPass_attrs _ _ _ (by decide) (by decide),
        textPass_attrs _ _ (by decide)]
      exact hm
    have h1 := attrPass_resolves "aria-placeholder"
      (attrPass "aria-label" (attrPass "title" (attrPass "placeholder"
        (textPass e)))) o ho (by decide) h0
    constructor
    · rw [attrPass_attrs _ _ _ (by decide) (by decide),
        attrPass_attrs _ _ _ (by decide) (by decide)]
      exact h1.1
    · rw [attrPass_attrs _ _ _ (by decide) (by decide),
        attrPass_attrs _ _ _ (by decide) (by decide)]
      exact h1.2
  · -- aria-description
    have h0 : getAttribute (attrPass "aria-placeholder" (attrPass "aria-label"
        (attrPass "title" (attrPass "placeholder" (textPass e)))))
        "data-original-aria-description" = some o := by
      rw [attrPass_attrs _ _ _ (by decide) (by decide),
        attrPass_attrs _ _ _ (by decide) (by decide),
        attrPass_attrs _ _ _ (by decide) (by decide),
        attrPass_attrs _ _ _ (by decide) (by decide),
        textPass_attrs _ _ (by decide)]
      exact hm
    have h1 := attrPass_resolves "aria-description"
      (attrPass "aria-placeholder" (attrPass "aria-label" (attrPass "title"
        (attrPass "placeholder" (textPass e))))) o ho (by decide) h0
    constructor
    · rw [attrPass_attrs _ _ _ (by decide) (by decide)]
      exact h1.1
    · rw [attrPass_attrs _ _ _ (by decide) (by decide)]
      exact h1.2
  · -- alt
    have h0 : getAttribute (attrPass "aria-description"
        (attrPass "aria-placeholder" (attrPass "aria-label" (attrPass "title"
          (attrPass "placeholder" (textPass e)))))) "data-original-alt" =
        some o := by
      rw [attrPass_attrs _ _ _ (by decide) (by decide),
        attrPass_attrs _ _ _ (by decide) (by decide),
        attrPass_attrs _ _ _ (by decide) (by decide),
        attrPass_attrs _ _ _ (by decide) (by decide),
        attrPass_attrs _ _ _ (by decide) (by decide),
        textPass_attrs _ _ (by decide)]
      exact hm
    exact attrPass_resolves "alt" (attrPass "aria-description"
      (attrPass "aria-placeholder" (attrPass "aria-label" (attrPass "title"
        (attrPass "placeholder" (textPass e)))))) o ho (by decide) h0

theorem revertTranslations_eq_map (doc : List Elem) :
    revertTranslations doc = doc.map revertElem := by
  unfold revertTranslations TRANSLATABLE_ATTRS
  simp only [List.foldl_cons, List.foldl_nil, List.map_map]
  rfl

end Translator

/-- C4: switching the language from a non-default `A` to the default
`'en'` dispatches the revert action, and `revertTranslations` restores
every marked element's text content and translatable attributes to exactly
their stored pre-translation values and clears all translation markers
(`data-original-*` and the `translated` class) from those elements.  The
`MarkersNonempty` hypothesis records the translator's own write discipline:
stored originals pass `shouldTranslateText` and are never the empty string
(an empty marker value, which only a foreign writer could produce, is
skipped by the `if (original)` truthiness guards). -/
theorem translator_revert_on_switch_to_default (prev : String)
    (doc : List Translator.Elem) (hprev : prev ≠ "en")
    (hm : Translator.MarkersNonempty doc) :
    Translator.languageEffectAction prev "en" false =
      Translator.LanguageAction.revert ∧
    ∀ (k : Nat) (e : Translator.Elem), doc[k]? = some e →
      (Translator.revertTranslations doc)[k]? =
          some (Translator.revertElem e) ∧
      (∀ o, Translator.getAttribute e "data-original-text" = some o →
        (Translator.revertElem e).textContent = o ∧
        Translator.getAttribute (Translator.revertElem e)
          "data-original-text" = none ∧
        "translated" ∉ (Translator.revertElem e).classes) ∧
      (∀ attr ∈ Translator.TRANSLATABLE_ATTRS, ∀ o,
        Translator.getAttribute e ("data-original-" ++ attr) = some o →
        Translator.getAttribute (Translator.revertElem e) attr = some o ∧
        Translator.getAttribute (Translator.revertElem e)
          ("data-original-" ++ attr) = none) := by
  refine ⟨rfl, ?_⟩
  intro k e hk
  have he : e ∈ doc := by
    rw [List.getElem?_eq_some] at hk
    obtain ⟨h1, h2⟩ := hk
    exact h2 ▸ List.getElem_mem h1
  obtain ⟨hmt, hma⟩ := hm e he
  refine ⟨?_, ?_, ?_⟩
  · rw [Translator.revertTranslations_eq_map, List.getElem?_map, hk]
    rfl
  · intro o ho'
    have ho : o ≠ "" := by
      intro h
      rw [h] at ho'
      exact hmt ho'
    exact Translator.revertElem_text e o ho ho'
  · intro attr hattr o ho'
    have ho : o ≠ "" := by
      intro h
      rw [h] at ho'
      exact hma attr hattr ho'
    exact Translator.revertElem_attr e attr hattr o ho ho'

/-- C4 (witness): a single translated element (stored original text
`"Hello"`, stored original `title` `"Tip"`, currently showing `"Bonjour"`
with the `translated` class) is fully restored by the `'fr' → 'en'`
switch: text back to `"Hello"`, `title` back to `"Tip"`, both markers and
the class gone. -/
theorem translator_revert_on_switch_to_default_witness :
    Translator.languageEffectAction "fr" "en" false =
      Translator.LanguageAction.revert ∧
    ((Translator.revertElem
        { tagName := "P",
          attrs := [("data-original-text", "Hello"),
            ("title", "Conseil"), ("data-original-title", "Tip")],
          classes := ["translated"], textContent := "Bonjour" }).textContent =
        "Hello" ∧
      Translator.getAttribute (Translator.revertElem
        { tagName := "P",
          attrs := [("data-original-text", "Hello"),
            ("title", "Conseil"), ("data-original-title", "Tip")],
          classes := ["translated"], textContent := "Bonjour" })
        "data-original-text" = none ∧
      "translated" ∉ (Translator.revertElem
        { tagName := "P",
          attrs := [("data-original-text", "Hello"),
            ("title", "Conseil"), ("data-original-title", "Tip")],
          classes := ["translated"], textContent := "Bonjour" }).classes) ∧
    (Translator.getAttribute (Translator.revertElem
        { tagName := "P",
          attrs := [("data-original-text", "Hello"),
            ("title", "Conseil"), ("data-original-title", "Tip")],
          classes := ["translated"], textContent := "Bonjour" }) "title" =
        some "Tip" ∧
      Translator.getAttribute (Translator.revertElem
        { tagName := "P",
          attrs := [("data-original-text", "Hello"),
            ("title", "Conseil"), ("data-original-title", "Tip")],
          classes := ["translated"], textContent := "Bonjour" })
        "data-original-title" = none) :=
  ⟨(translator_revert_on_switch_to_default "fr"
      [{ tagName := "P",
         attrs := [("data-original-text", "Hello"),
           ("title", "Conseil"), ("data-original-title", "Tip")],
         classes := ["translated"], textContent := "Bonjour" }]
      (by decide) (by unfold Translator.MarkersNonempty; decide)).1,
   ((translator_revert_on_switch_to_default "fr"
      [{ tagName := "P",
         attrs := [("data-original-text", "Hello"),
           ("title", "Conseil"), ("data-original-title", "Tip")],
         classes := ["translated"], textContent := "Bonjour" }]
      (by decide) (by unfold Translator.MarkersNonempty; decide)).2 0
      { tagName := "P",
        attrs := [("data-original-text", "Hello"),
          ("title", "Conseil"), ("data-original-title", "Tip")],
        classes := ["translated"], textContent := "Bonjour" }
      (by decide)).2.1 "Hello" (by decide),
   ((translator_revert_on_switch_to_default "fr"
      [{ tagName := "P",
         attrs := [("data-original-text", "Hello"),
           ("title", "Conseil"), ("data-original-title", "Tip")],
         classes := ["translated"], textContent := "Bonjour" }]
      (by decide) (by unfold Translator.MarkersNonempty; decide)).2 0
      { tagName := "P",
        attrs := [("data-original-text", "Hello"),
          ("title", "Conseil"), ("data-original-title", "Tip")],
        classes := ["translated"], textContent := "Bonjour" }
      (by decide)).2.2 "title" (by decide) "Tip" (by decide)⟩
